import Mathlib

/-!
# usbip-win vhci: the request pairing core (`driver/vhci/usbreq.c`)

A shallow embedding of the URB request queue of the virtual host controller:
`find_urb_req`, `find_pending_urb_req`, `remove_cancelled_urb_req`,
`cancel_urb_req`, `create_urb_req`, `insert_urb_req` and `submit_urb_req`,
and of the setup packet helper `build_setup_packet`.

Modelling decisions.

* A `struct urb_req` is the record of its fields `irp`, `seq_num`, `sent`
  (the back pointer `pdodata` is dropped: one controller is modelled, and the
  intrusive `list` link is the position in `ioctl_q`).  A function that
  returns a `struct urb_req *` returns the value the pointee has when the
  function returns; `NULL` is `none`.
* `ioctl_q` is the list of queued objects from `Flink` of the head onwards;
  `InsertTailList` appends, `RemoveEntryList` deletes the visited entry.
* `seq_num` is an unsigned 32-bit counter: `++` is `(n + 1) % 2 ^ 32`.
* An IRP is addressed by a handle `PIRP`; the kernel fields the code touches
  (`Cancel`, the cancel routine slot, the pending mark, `IoStatus.Status`)
  live in `State.irps`.
* Calls that leave the file (`ExFreeToNPagedLookasideList`, `process_urb_req`,
  `IoCompleteRequest`) are recorded, in order, in `State.trace`.
* What the surroundings decide during one `submit_urb_req` (whether the
  lookaside list has an object, what `process_urb_req` answers, whether
  `IoCancelIrp` gets in between the two `IoSetCancelRoutine` calls of
  `insert_urb_req`) is the argument `Env`.
* Spin locks are not modelled: every function is one atomic step.  Debug
  output (`DBGI`, `DBGW`, `DBGE`) has no effect on the state; whether the
  report of line 73 would be made is `nonzero_seq_reported`.
* The bit-fields of `bmRequestType` are written through `set_bits` at the
  offsets and widths of a `bm_layout`; the declaration of `usb_cspkt_t` is
  not among the sources, `spec_layout` is the layout the specification gives.
-/

namespace UsbipVhci

/-- Handle of an I/O request packet (`PIRP`). -/
abbrev PIRP := Nat

/-- The type `NTSTATUS` is a signed 32-bit value. -/
abbrev NTSTATUS := Int

/-- The status `STATUS_SUCCESS` (0x00000000). -/
def STATUS_SUCCESS : NTSTATUS := 0
/-- The status `STATUS_PENDING` (0x00000103). -/
def STATUS_PENDING : NTSTATUS := 0x103
/-- The status `STATUS_BUFFER_TOO_SMALL` (0xC0000023). -/
def STATUS_BUFFER_TOO_SMALL : NTSTATUS := 0xC0000023 - 0x100000000
/-- The status `STATUS_INVALID_PARAMETER` (0xC000000D). -/
def STATUS_INVALID_PARAMETER : NTSTATUS := 0xC000000D - 0x100000000
/-- The status `STATUS_INSUFFICIENT_RESOURCES` (0xC000009A). -/
def STATUS_INSUFFICIENT_RESOURCES : NTSTATUS := 0xC000009A - 0x100000000
/-- The status `STATUS_CANCELLED` (0xC0000120). -/
def STATUS_CANCELLED : NTSTATUS := 0xC0000120 - 0x100000000

/-- The fields of an IRP that `usbreq.c` reads or writes.  `CancelRoutine` is
`true` when `cancel_urb_req` is registered and `false` when the slot is `NULL`. -/
structure IRP where
  Cancel : Bool
  CancelRoutine : Bool
  PendingReturned : Bool
  Status : NTSTATUS
deriving DecidableEq, Repr

/-- The `struct urb_req` fields used by `usbreq.c`. -/
structure urb_req where
  irp : PIRP
  seq_num : Nat
  sent : Bool
deriving DecidableEq, Repr

/-- Calls that leave `usbreq.c`, in the order they are made. -/
inductive Event where
  /-- A call `ExFreeToNPagedLookasideList(&g_lookaside, urb_r)`. -/
  | free (urb_r : urb_req)
  /-- A call `process_urb_req(read_irp, urb_r)`. -/
  | encode (read_irp : PIRP) (urb_r : urb_req)
  /-- A call `IoCompleteRequest(irp, IO_NO_INCREMENT)` with `irp->IoStatus.Status` as it is then. -/
  | complete (irp : PIRP) (status : NTSTATUS)
deriving DecidableEq, Repr

/-- The controller (`PDO_DEVICE_DATA`: `ioctl_q`, `seq_num`, `pending_read_irp`)
together with the IRPs and the trace of outgoing calls. -/
structure State where
  ioctl_q : List urb_req
  seq_num : Nat
  pending_read_irp : Option PIRP
  irps : PIRP → IRP
  trace : List Event

/-- What the surroundings decide during one call of `submit_urb_req`. -/
structure Env where
  /-- Whether `ExAllocateFromNPagedLookasideList` returns an object (`true`) or `NULL`. -/
  alloc : Bool
  /-- The status `process_urb_req(read_irp, urb_r)` returns. -/
  process_urb_req : PIRP → urb_req → NTSTATUS
  /-- Whether `IoCancelIrp` starts on the submitted IRP between the two
  `IoSetCancelRoutine` calls of `insert_urb_req`. -/
  cancel_races : Bool

/-- A 32-bit unsigned pre-increment, `++n`. -/
def incr32 (n : Nat) : Nat := (n + 1) % 2 ^ 32

/-- Write one IRP. -/
def setIrp (irps : PIRP → IRP) (p : PIRP) (v : IRP) : PIRP → IRP :=
  fun q => if q = p then v else irps q

/-- The call `IoSetCancelRoutine(irp, routine)`: exchange the slot, return the old content. -/
def IoSetCancelRoutine (i : IRP) (routine : Bool) : Bool × IRP :=
  (i.CancelRoutine, { i with CancelRoutine := routine })

/-- The call `IoMarkIrpPending(irp)`. -/
def IoMarkIrpPending (i : IRP) : IRP := { i with PendingReturned := true }

/-- The first half of the kernel's `IoCancelIrp`: set `Cancel` and take the
cancel routine out of the slot (the routine taken is then called). -/
def IoCancelIrp_begin (i : IRP) : IRP := { i with Cancel := true, CancelRoutine := false }

/-- The `for` loop of `find_urb_req` (lines 44-55).  `visited` are the entries
already passed, the second list is what `le` has still to visit, the third
argument is the local `urb_r`. -/
def find_urb_req_loop (s : State) (seqnum : Nat) :
    List urb_req → List urb_req → Option urb_req → Option urb_req × State
  | _, [], urb_r => (urb_r, s)
  | visited, u :: rest, _ =>
    if u.seq_num = seqnum then
      if (IoSetCancelRoutine (s.irps u.irp) false).1 = false then
        (none, { s with irps := setIrp s.irps u.irp (IoSetCancelRoutine (s.irps u.irp) false).2 })
      else
        (some u, { s with irps := setIrp s.irps u.irp (IoSetCancelRoutine (s.irps u.irp) false).2,
                          ioctl_q := visited ++ rest })
    else find_urb_req_loop s seqnum (visited ++ [u]) rest (some u)

/-- The function `find_urb_req(pdodata, hdr)` with `seqnum = hdr->base.seqnum`. -/
def find_urb_req (s : State) (seqnum : Nat) : Option urb_req × State :=
  find_urb_req_loop s seqnum [] s.ioctl_q none

/-- The `for` loop of `find_pending_urb_req` (lines 66-78). -/
def find_pending_urb_req_loop (s : State) :
    List urb_req → List urb_req → Option urb_req × State
  | _, [] => (none, s)
  | visited, urb :: rest =>
    if urb.sent = false then
      (some { urb with sent := true, seq_num := incr32 s.seq_num },
       { s with seq_num := incr32 s.seq_num,
                ioctl_q := visited ++ { urb with sent := true, seq_num := incr32 s.seq_num } :: rest })
    else find_pending_urb_req_loop s (visited ++ [urb]) rest

/-- The function `find_pending_urb_req(pdodata)`. -/
def find_pending_urb_req (s : State) : Option urb_req × State :=
  find_pending_urb_req_loop s [] s.ioctl_q

/-- The `for` loop of `remove_cancelled_urb_req` (lines 90-102). -/
def remove_cancelled_urb_req_loop (s : State) (irp : PIRP) :
    List urb_req → List urb_req → State
  | _, [] => s
  | visited, urb_r :: rest =>
    if urb_r.irp = irp then
      { s with ioctl_q := visited ++ rest, trace := s.trace ++ [Event.free urb_r] }
    else remove_cancelled_urb_req_loop s irp (visited ++ [urb_r]) rest

/-- The function `remove_cancelled_urb_req(pdodata, irp)`. -/
def remove_cancelled_urb_req (s : State) (irp : PIRP) : State :=
  remove_cancelled_urb_req_loop s irp [] s.ioctl_q

/-- Write `irp->IoStatus.Status`. -/
def setStatus (i : IRP) (st : NTSTATUS) : IRP := { i with Status := st }

/-- The call `IoCompleteRequest(irp, IO_NO_INCREMENT)`. -/
def IoCompleteRequest (s : State) (irp : PIRP) : State :=
  { s with trace := s.trace ++ [Event.complete irp (s.irps irp).Status] }

/-- Lines 118-119 of `cancel_urb_req`, after the queue has been searched. -/
def complete_cancelled (s : State) (irp : PIRP) : State :=
  IoCompleteRequest { s with irps := setIrp s.irps irp (setStatus (s.irps irp) STATUS_CANCELLED) } irp

/-- The function `cancel_urb_req(pdo, irp)`. -/
def cancel_urb_req (s : State) (irp : PIRP) : State :=
  complete_cancelled (remove_cancelled_urb_req s irp) irp

/-- The function `create_urb_req(pdodata, irp)`: a zeroed object carrying `irp`, or `NULL`. -/
def create_urb_req (alloc : Bool) (irp : PIRP) : Option urb_req :=
  if alloc then some { irp := irp, seq_num := 0, sent := false } else none

/-- The IRP as `insert_urb_req` sees it at line 145: the cancel routine has
been registered (line 144) and `IoCancelIrp` may have started since. -/
def registered_irp (cancel_races : Bool) (i : IRP) : IRP :=
  if cancel_races then IoCancelIrp_begin (IoSetCancelRoutine i true).2
  else (IoSetCancelRoutine i true).2

/-- The condition of line 145, `irp->Cancel && IoSetCancelRoutine(irp, NULL)`,
with the IRP it leaves behind (`&&` does not evaluate the call when `Cancel` is clear). -/
def cancel_check (i : IRP) : Bool × IRP :=
  if i.Cancel then IoSetCancelRoutine i false else (false, i)

/-- The function `insert_urb_req(pdodata, urb_r)`. -/
def insert_urb_req (cancel_races : Bool) (s : State) (urb_r : urb_req) : Bool × State :=
  let chk := cancel_check (registered_irp cancel_races (s.irps urb_r.irp))
  if chk.1 then
    (false, { s with irps := setIrp s.irps urb_r.irp chk.2 })
  else
    (true, { s with irps := setIrp s.irps urb_r.irp (IoMarkIrpPending chk.2),
                    ioctl_q := s.ioctl_q ++ [urb_r] })

/-- Record a call to `ExFreeToNPagedLookasideList`. -/
def ExFreeToNPagedLookasideList (s : State) (urb_r : urb_req) : State :=
  { s with trace := s.trace ++ [Event.free urb_r] }

/-- Line 184, `read_irp->IoStatus.Status = process_urb_req(read_irp, urb_r)`. -/
def call_process_urb_req (env : Env) (s : State) (read_irp : PIRP) (urb_r : urb_req) : State :=
  { s with irps := setIrp s.irps read_irp
                     (setStatus (s.irps read_irp) (env.process_urb_req read_irp urb_r)),
           trace := s.trace ++ [Event.encode read_irp urb_r] }

/-- Lines 184-201 of `submit_urb_req`: a reader was waiting, `urb_r` already
carries its sequence number and the lock has been released. -/
def submit_urb_req_paired (env : Env) (s : State) (read_irp : PIRP) (urb_r : urb_req) :
    NTSTATUS × State :=
  let s1 := call_process_urb_req env s read_irp urb_r
  if (s1.irps read_irp).Status = STATUS_SUCCESS then
    let r := insert_urb_req env.cancel_races s1 { urb_r with sent := true }
    let status := if r.1 then STATUS_PENDING else STATUS_CANCELLED
    if status = STATUS_CANCELLED then
      (status, IoCompleteRequest (ExFreeToNPagedLookasideList r.2 { urb_r with sent := true }) read_irp)
    else
      (status, IoCompleteRequest r.2 read_irp)
  else
    (STATUS_INVALID_PARAMETER, IoCompleteRequest (ExFreeToNPagedLookasideList s1 urb_r) read_irp)

/-- The function `submit_urb_req(pdodata, irp)`. -/
def submit_urb_req (env : Env) (s : State) (irp : PIRP) : NTSTATUS × State :=
  match create_urb_req env.alloc irp with
  | none => (STATUS_INSUFFICIENT_RESOURCES, s)
  | some urb_r =>
    match s.pending_read_irp with
    | none =>
      let r := insert_urb_req env.cancel_races { s with pending_read_irp := none } urb_r
      if r.1 = false then (STATUS_CANCELLED, ExFreeToNPagedLookasideList r.2 urb_r)
      else (STATUS_PENDING, r.2)
    | some read_irp =>
      submit_urb_req_paired env
        { s with pending_read_irp := none, seq_num := incr32 s.seq_num }
        read_irp { urb_r with seq_num := incr32 s.seq_num }

/-- The kernel's `IoCancelIrp(irp)` as far as this file can see it: `Cancel`
is set, the cancel routine is taken out of the slot and, when one was
registered, it is called (the only routine this file registers is `cancel_urb_req`). -/
def IoCancelIrp (s : State) (irp : PIRP) : State :=
  if (s.irps irp).CancelRoutine then
    cancel_urb_req { s with irps := setIrp s.irps irp (IoCancelIrp_begin (s.irps irp)) } irp
  else
    { s with irps := setIrp s.irps irp (IoCancelIrp_begin (s.irps irp)) }

/-- The operations performed on one controller.  `wait_read` is the read path
of the driver (outside `usbreq.c`) parking a reader in `pending_read_irp`.
`cancel` is a whole `IoCancelIrp`; `cancel_begin` and `cancel_callback` are
its two halves taken apart (the flag and slot update, and the call of
`cancel_urb_req`), so that another operation can come in between. -/
inductive Op where
  | submit (env : Env) (irp : PIRP)
  | take_next_pending
  | find_by_sequence (seqnum : Nat)
  | cancel (irp : PIRP)
  | wait_read (read_irp : PIRP)
  | cancel_begin (irp : PIRP)
  | cancel_callback (irp : PIRP)

/-- The sequence number of the object handed to `process_urb_req`. -/
def encoded_seq : Event → Option Nat
  | Event.encode _ urb_r => some urb_r.seq_num
  | _ => none

/-- One operation: the sequence numbers it assigns (the number of the object
`find_pending_urb_req` returns, the number of the object `submit_urb_req`
hands to `process_urb_req`) and the state it leaves. -/
def step (s : State) : Op → List Nat × State
  | Op.submit env irp =>
    (((submit_urb_req env s irp).2.trace.drop s.trace.length).filterMap encoded_seq,
     (submit_urb_req env s irp).2)
  | Op.take_next_pending =>
    ((find_pending_urb_req s).1.toList.map urb_req.seq_num, (find_pending_urb_req s).2)
  | Op.find_by_sequence seqnum => ([], (find_urb_req s seqnum).2)
  | Op.cancel irp => ([], IoCancelIrp s irp)
  | Op.wait_read read_irp => ([], { s with pending_read_irp := some read_irp })
  | Op.cancel_begin irp =>
    ([], { s with irps := setIrp s.irps irp (IoCancelIrp_begin (s.irps irp)) })
  | Op.cancel_callback irp => ([], cancel_urb_req s irp)

/-- A sequence of operations: the sequence numbers assigned, in assignment
order, and the final state. -/
def run (s : State) : List Op → List Nat × State
  | [] => ([], s)
  | op :: ops => ((step s op).1 ++ (run (step s op).2 ops).1, (run (step s op).2 ops).2)

/-- The number of submit and take-next-pending operations in a sequence:
the only operations that can assign a sequence number. -/
def assigning_ops : List Op → Nat
  | [] => 0
  | Op.submit _ _ :: ops => assigning_ops ops + 1
  | Op.take_next_pending :: ops => assigning_ops ops + 1
  | Op.find_by_sequence _ :: ops => assigning_ops ops
  | Op.cancel _ :: ops => assigning_ops ops
  | Op.wait_read _ :: ops => assigning_ops ops
  | Op.cancel_begin _ :: ops => assigning_ops ops
  | Op.cancel_callback _ :: ops => assigning_ops ops

/-- Repeated `find_pending_urb_req`: what each of `n` consecutive calls
returns, and the state after the last one. -/
def take_pending_n : Nat → State → List (Option urb_req) × State
  | 0, s => ([], s)
  | n + 1, s =>
    ((find_pending_urb_req s).1 :: (take_pending_n n (find_pending_urb_req s).2).1,
     (take_pending_n n (find_pending_urb_req s).2).2)

/-- Repeated `submit_urb_req`, one call per IRP of the list, in list order. -/
def submit_all (env : Env) : State → List PIRP → State
  | s, [] => s
  | s, irp :: irps => submit_all env (submit_urb_req env s irp).2 irps

/-- The controller right after initialisation: empty queue, counter 0, no
reader parked (the IRPs and the trace are whatever they are). -/
def initial (s : State) : Prop :=
  s.ioctl_q = [] ∧ s.seq_num = 0 ∧ s.pending_read_irp = none

/-- The data-model invariant `sequence_number == 0 ⇒ sent == false` on the
queued objects. -/
def zero_seq_unsent (s : State) : Prop :=
  ∀ u ∈ s.ioctl_q, u.seq_num = 0 → u.sent = false

/-- Every queued object that has not been sent carries sequence number 0. -/
def unsent_unnumbered (s : State) : Prop :=
  ∀ u ∈ s.ioctl_q, u.sent = false → u.seq_num = 0

instance (s : State) : Decidable (zero_seq_unsent s) :=
  inferInstanceAs (Decidable (∀ u ∈ s.ioctl_q, u.seq_num = 0 → u.sent = false))

instance (s : State) : Decidable (unsent_unnumbered s) :=
  inferInstanceAs (Decidable (∀ u ∈ s.ioctl_q, u.sent = false → u.seq_num = 0))

/-- Whether a call of `find_pending_urb_req` on this queue reaches line 73,
the report "non-zero seq_num": the loop of lines 66-78 stops at the first
unsent entry and reports when its `seq_num` is not 0. -/
def nonzero_seq_reported : List urb_req → Bool
  | [] => false
  | urb :: rest => if urb.sent = false then urb.seq_num != 0 else nonzero_seq_reported rest

/-! ## `build_setup_packet` -/

/-- The two bytes of `usb_cspkt_t` that `build_setup_packet` writes:
`bmRequestType.B` (the byte the bit-fields live in) and `bRequest`. -/
structure usb_cspkt_t where
  B : Nat
  bRequest : Nat
deriving DecidableEq, Repr

/-- Where the bit-fields `Recipient`, `Type` and `Dir` of `bmRequestType` sit
in the byte `B`: offset and width of each. -/
structure bm_layout where
  recip_off : Nat
  recip_width : Nat
  type_off : Nat
  type_width : Nat
  dir_off : Nat
  dir_width : Nat
deriving DecidableEq, Repr

/-- Modelled from the spec: the declaration of `usb_cspkt_t` is not among the
sources.  Bits 0-4 of the request-type byte are the recipient, bits 5-6 the
request type, bit 7 the direction. -/
def spec_layout : bm_layout :=
  { recip_off := 0, recip_width := 5, type_off := 5, type_width := 2, dir_off := 7, dir_width := 1 }

/-- The value `BMREQUEST_DEVICE_TO_HOST` (1 in `usbspec.h`). -/
def BMREQUEST_DEVICE_TO_HOST : Nat := 1

/-- Assignment to a bit-field of `width` bits at bit `off` of the byte `b`:
the value is truncated to the width, the other bits of `b` are kept. -/
def set_bits (b off width v : Nat) : Nat :=
  b - ((b / 2 ^ off) % 2 ^ width) * 2 ^ off + (v % 2 ^ width) * 2 ^ off

/-- Line 28, `csp->bmRequestType.B = 0`. -/
def csp_clear (csp : usb_cspkt_t) : usb_cspkt_t := { csp with B := 0 }

/-- Line 29, `csp->bmRequestType.Type = type`. -/
def csp_set_type (l : bm_layout) (csp : usb_cspkt_t) (type : Nat) : usb_cspkt_t :=
  { csp with B := set_bits csp.B l.type_off l.type_width type }

/-- Lines 30-31, `if (direct_in) csp->bmRequestType.Dir = BMREQUEST_DEVICE_TO_HOST`. -/
def csp_set_dir (l : bm_layout) (csp : usb_cspkt_t) (direct_in : Nat) : usb_cspkt_t :=
  if direct_in ≠ 0 then
    { csp with B := set_bits csp.B l.dir_off l.dir_width BMREQUEST_DEVICE_TO_HOST }
  else csp

/-- Line 32, `csp->bmRequestType.Recipient = recip`. -/
def csp_set_recip (l : bm_layout) (csp : usb_cspkt_t) (recip : Nat) : usb_cspkt_t :=
  { csp with B := set_bits csp.B l.recip_off l.recip_width recip }

/-- The function `build_setup_packet(csp, direct_in, type, recip, request)`;
the arguments are `unsigned char` values, `bRequest` is one byte. -/
def build_setup_packet (l : bm_layout) (csp : usb_cspkt_t)
    (direct_in type recip request : Nat) : usb_cspkt_t :=
  { csp_set_recip l (csp_set_dir l (csp_set_type l (csp_clear csp) type) direct_in) recip with
    bRequest := request % 256 }

/-! ## Concrete controllers used as instances -/

/-- An IRP nobody has touched. -/
def irp_fresh : IRP := { Cancel := false, CancelRoutine := false, PendingReturned := false, Status := 0 }

/-- An IRP queued by `insert_urb_req`: cancel routine registered, marked pending. -/
def irp_queued : IRP := { Cancel := false, CancelRoutine := true, PendingReturned := true, Status := 0 }

/-- The controller after initialisation: empty queue, counter 0, no reader. -/
def s_init : State :=
  { ioctl_q := [], seq_num := 0, pending_read_irp := none, irps := fun _ => irp_fresh, trace := [] }

/-- One sent object with sequence number 5 (IRP 1) is queued. -/
def s_one_sent : State :=
  { ioctl_q := [{ irp := 1, seq_num := 5, sent := true }], seq_num := 5, pending_read_irp := none,
    irps := fun _ => irp_queued, trace := [] }

/-- Three queued objects: two sent ones (sequence numbers 4 and 5) around an unsent one. -/
def s_three : State :=
  { ioctl_q := [{ irp := 1, seq_num := 4, sent := true }, { irp := 2, seq_num := 0, sent := false },
                { irp := 3, seq_num := 5, sent := true }],
    seq_num := 5, pending_read_irp := none, irps := fun _ => irp_queued, trace := [] }

/-- The counter has reached its last value, `2 ^ 32 - 1`; one unsent object is queued. -/
def s_wrap : State :=
  { ioctl_q := [{ irp := 1, seq_num := 0, sent := false }], seq_num := 4294967295,
    pending_read_irp := none, irps := fun _ => irp_queued, trace := [] }

/-- The counter is one short of its last value; the queue is empty and no
reader waits. -/
def s_near_wrap : State :=
  { ioctl_q := [], seq_num := 4294967294, pending_read_irp := none, irps := fun _ => irp_fresh,
    trace := [] }

/-- The counter is one short of its last value; two unsent objects are queued. -/
def s_wrap_two : State :=
  { ioctl_q := [{ irp := 1, seq_num := 0, sent := false }, { irp := 2, seq_num := 0, sent := false }],
    seq_num := 4294967294, pending_read_irp := none, irps := fun _ => irp_queued, trace := [] }

/-- A reader (IRP 9) is parked in the slot of the initial controller. -/
def s_reader : State :=
  { ioctl_q := [], seq_num := 0, pending_read_irp := some 9, irps := fun _ => irp_fresh, trace := [] }

/-- A reader (IRP 9) is parked and the counter has reached `2 ^ 32 - 1`. -/
def s_reader_wrap : State :=
  { ioctl_q := [], seq_num := 4294967295, pending_read_irp := some 9, irps := fun _ => irp_fresh,
    trace := [] }

/-- The kernel's `IoCancelIrp` has already marked every IRP cancelled; no reader waits. -/
def s_cancelled : State :=
  { ioctl_q := [], seq_num := 0, pending_read_irp := none,
    irps := fun _ => { Cancel := true, CancelRoutine := false, PendingReturned := false, Status := 0 },
    trace := [] }

/-- A reader (IRP 9) waits and every IRP is already marked cancelled. -/
def s_reader_cancelled : State :=
  { ioctl_q := [], seq_num := 0, pending_read_irp := some 9,
    irps := fun _ => { Cancel := true, CancelRoutine := false, PendingReturned := false, Status := 0 },
    trace := [] }

/-- The pool has an object, `process_urb_req` succeeds, no cancellation gets in between. -/
def env_success : Env :=
  { alloc := true, process_urb_req := fun _ _ => STATUS_SUCCESS, cancel_races := false }

/-- The pool has an object, `process_urb_req` fails with `STATUS_BUFFER_TOO_SMALL`. -/
def env_failure : Env :=
  { alloc := true, process_urb_req := fun _ _ => STATUS_BUFFER_TOO_SMALL, cancel_races := false }

/-- The lookaside list returns `NULL`. -/
def env_no_memory : Env :=
  { alloc := false, process_urb_req := fun _ _ => STATUS_SUCCESS, cancel_races := false }

/-- The queue of `s_three`, but `IoCancelIrp` has started on every IRP: the
`Cancel` flag is set and the cancel routine has been taken out of the slot. -/
def s_three_cancelling : State :=
  { ioctl_q := [{ irp := 1, seq_num := 4, sent := true }, { irp := 2, seq_num := 0, sent := false },
                { irp := 3, seq_num := 5, sent := true }, { irp := 4, seq_num := 5, sent := true }],
    seq_num := 5, pending_read_irp := none,
    irps := fun _ => { Cancel := true, CancelRoutine := false, PendingReturned := true, Status := 0 },
    trace := [] }

/-! ## `find_urb_req` -/

/-- When no entry still to visit carries `seqnum`, the loop of `find_urb_req`
runs off the end of the list: the state is untouched and the local `urb_r`
is left at the last entry visited. -/
theorem find_urb_req_loop_no_match (s : State) (seqnum : Nat) :
    ∀ (rest visited : List urb_req) (urb_r : Option urb_req),
      (∀ u ∈ rest, u.seq_num ≠ seqnum) →
      find_urb_req_loop s seqnum visited rest urb_r =
        (match rest.getLast? with
          | some u => some u
          | none => urb_r, s) := by
  intro rest
  induction rest with
  | nil => intro visited urb_r _; simp [find_urb_req_loop]
  | cons u rest ih =>
    intro visited urb_r h
    have hu : u.seq_num ≠ seqnum := h u (List.mem_cons_self _ _)
    have hrest : ∀ v ∈ rest, v.seq_num ≠ seqnum := fun v hv => h v (List.mem_cons_of_mem _ hv)
    rw [find_urb_req_loop, if_neg hu, ih _ _ hrest]
    cases rest with
    | nil => simp
    | cons w ws =>
      obtain ⟨x, hx⟩ : ∃ x, (w :: ws).getLast? = some x :=
        ⟨_, List.getLast?_eq_getLast _ (List.cons_ne_nil _ _)⟩
      simp [List.getLast?_cons_cons, hx]

/-- On a sequence number no queued object carries, `find_urb_req` leaves the
state as it is and returns the last queued object (`NULL` only for an empty queue). -/
theorem find_urb_req_no_match (s : State) (seqnum : Nat)
    (h : ∀ u ∈ s.ioctl_q, u.seq_num ≠ seqnum) :
    find_urb_req s seqnum = (s.ioctl_q.getLast?, s) := by
  rw [find_urb_req, find_urb_req_loop_no_match s seqnum _ _ _ h]
  cases s.ioctl_q.getLast? <;> rfl

/-- The loop of `find_urb_req` stops at the first entry carrying `seqnum`;
when its cancel routine is still registered the entry is unlinked and returned. -/
theorem find_urb_req_loop_match (s : State) (seqnum : Nat) (u : urb_req) (post : List urb_req)
    (hu : u.seq_num = seqnum) (hreg : (s.irps u.irp).CancelRoutine = true) :
    ∀ (pre visited : List urb_req) (urb_r : Option urb_req),
      (∀ v ∈ pre, v.seq_num ≠ seqnum) →
      find_urb_req_loop s seqnum visited (pre ++ u :: post) urb_r =
        (some u, { s with irps := setIrp s.irps u.irp (IoSetCancelRoutine (s.irps u.irp) false).2,
                          ioctl_q := visited ++ pre ++ post }) := by
  intro pre
  induction pre with
  | nil =>
    intro visited urb_r _
    simp [find_urb_req_loop, hu, hreg, IoSetCancelRoutine]
  | cons w pre ih =>
    intro visited urb_r h
    have hw : w.seq_num ≠ seqnum := h w (List.mem_cons_self _ _)
    have hpre : ∀ v ∈ pre, v.seq_num ≠ seqnum := fun v hv => h v (List.mem_cons_of_mem _ hv)
    rw [List.cons_append, find_urb_req_loop, if_neg hw, ih _ _ hpre]
    simp

/-- C1 (the code at the failing input): the queue holds one object with
sequence number 5 and no object with sequence number 7, yet `find_urb_req`
asked for 7 returns the queued object instead of nothing; the queue is unchanged. -/
theorem find_urb_req_unknown_seq_returns_last :
    (∀ u ∈ s_one_sent.ioctl_q, u.seq_num ≠ 7) ∧
    (find_urb_req s_one_sent 7).1 = some { irp := 1, seq_num := 5, sent := true } ∧
    (find_urb_req s_one_sent 7).2.ioctl_q = s_one_sent.ioctl_q := by
  decide

/-- The result of `find_urb_req` when the first object carrying `seq` still
has its cancel routine registered. -/
theorem find_urb_req_found_aux (s : State) (seq : Nat)
    (pre post : List urb_req) (u : urb_req)
    (hq : s.ioctl_q = pre ++ u :: post)
    (hpre : ∀ v ∈ pre, v.seq_num ≠ seq)
    (hu : u.seq_num = seq)
    (hreg : (s.irps u.irp).CancelRoutine = true) :
    (find_urb_req s seq).1 = some u ∧
    (find_urb_req s seq).2.ioctl_q = pre ++ post ∧
    (find_urb_req s seq).2.trace = s.trace ∧
    ((find_urb_req s seq).2.irps u.irp).CancelRoutine = false := by
  rw [find_urb_req, hq, find_urb_req_loop_match s seq u post hu hreg pre [] none hpre]
  simp [setIrp, IoSetCancelRoutine]

/-- C4: when the queue is `pre ++ u :: post`, no object of `pre` carries
`seq`, `u` carries it and the cancel routine of `u`'s IRP is still registered
(deregistration succeeds), `find_urb_req` returns `u`, the queue becomes
`pre ++ post`, and the counter and the reader slot are unchanged. -/
theorem find_urb_req_detaches_first_match (s : State) (seq : Nat)
    (pre post : List urb_req) (u : urb_req)
    (hq : s.ioctl_q = pre ++ u :: post)
    (hpre : ∀ v ∈ pre, v.seq_num ≠ seq)
    (hu : u.seq_num = seq)
    (hreg : (s.irps u.irp).CancelRoutine = true) :
    (find_urb_req s seq).1 = some u ∧
    (find_urb_req s seq).2.ioctl_q = pre ++ post ∧
    (find_urb_req s seq).2.seq_num = s.seq_num ∧
    (find_urb_req s seq).2.pending_read_irp = s.pending_read_irp := by
  rw [find_urb_req, hq, find_urb_req_loop_match s seq u post hu hreg pre [] none hpre]
  simp

/-- C4 at a concrete queue: the object with sequence number 5, third of three, is detached. -/
theorem find_urb_req_detaches_first_match_witness :
    (s_three.ioctl_q = [{ irp := 1, seq_num := 4, sent := true }, { irp := 2, seq_num := 0, sent := false }]
        ++ { irp := 3, seq_num := 5, sent := true } :: []) ∧
    (find_urb_req s_three 5).1 = some { irp := 3, seq_num := 5, sent := true } ∧
    (find_urb_req s_three 5).2.ioctl_q =
      [{ irp := 1, seq_num := 4, sent := true }, { irp := 2, seq_num := 0, sent := false }] ++ [] ∧
    (find_urb_req s_three 5).2.seq_num = s_three.seq_num ∧
    (find_urb_req s_three 5).2.pending_read_irp = s_three.pending_read_irp :=
  ⟨rfl, find_urb_req_detaches_first_match s_three 5
    [{ irp := 1, seq_num := 4, sent := true }, { irp := 2, seq_num := 0, sent := false }] []
    { irp := 3, seq_num := 5, sent := true } rfl (by decide) rfl rfl⟩

/-! ## `find_pending_urb_req` -/

/-- The loop of `find_pending_urb_req` stops at the first unsent entry, marks
it sent and gives it the incremented counter. -/
theorem find_pending_urb_req_loop_unsent (s : State) (u : urb_req) (post : List urb_req)
    (hu : u.sent = false) :
    ∀ (pre visited : List urb_req), (∀ v ∈ pre, v.sent = true) →
      find_pending_urb_req_loop s visited (pre ++ u :: post) =
        (some { u with sent := true, seq_num := incr32 s.seq_num },
         { s with seq_num := incr32 s.seq_num,
                  ioctl_q := visited ++ pre ++
                    { u with sent := true, seq_num := incr32 s.seq_num } :: post }) := by
  intro pre
  induction pre with
  | nil => intro visited _; simp [find_pending_urb_req_loop, hu]
  | cons w pre ih =>
    intro visited h
    have hw : ¬ (w.sent = false) := by simp [h w (List.mem_cons_self _ _)]
    have hpre : ∀ v ∈ pre, v.sent = true := fun v hv => h v (List.mem_cons_of_mem _ hv)
    rw [List.cons_append, find_pending_urb_req_loop, if_neg hw, ih _ hpre]
    simp

/-- Without an unsent entry the loop of `find_pending_urb_req` changes nothing. -/
theorem find_pending_urb_req_loop_all_sent (s : State) :
    ∀ (rest visited : List urb_req), (∀ v ∈ rest, v.sent = true) →
      find_pending_urb_req_loop s visited rest = (none, s) := by
  intro rest
  induction rest with
  | nil => intro visited _; rfl
  | cons w rest ih =>
    intro visited h
    have hw : ¬ (w.sent = false) := by simp [h w (List.mem_cons_self _ _)]
    rw [find_pending_urb_req_loop, if_neg hw,
      ih _ (fun v hv => h v (List.mem_cons_of_mem _ hv))]

/-- The result of `find_pending_urb_req` on a queue split at its first
unsent object. -/
theorem find_pending_urb_req_first_unsent_aux (s : State) (pre post : List urb_req) (u : urb_req)
    (hq : s.ioctl_q = pre ++ u :: post)
    (hpre : ∀ v ∈ pre, v.sent = true)
    (hu : u.sent = false) :
    (find_pending_urb_req s).1 = some { irp := u.irp, seq_num := incr32 s.seq_num, sent := true } ∧
    (find_pending_urb_req s).2.ioctl_q =
        pre ++ { irp := u.irp, seq_num := incr32 s.seq_num, sent := true } :: post ∧
    (find_pending_urb_req s).2.seq_num = incr32 s.seq_num ∧
    (find_pending_urb_req s).2.irps = s.irps ∧
    (find_pending_urb_req s).2.trace = s.trace ∧
    (find_pending_urb_req s).2.pending_read_irp = s.pending_read_irp := by
  rw [find_pending_urb_req, hq, find_pending_urb_req_loop_unsent s u post hu pre [] hpre]
  simp

/-- C5 (as amended): when the queue is `pre ++ u :: post` with every object of
`pre` sent and `u` unsent, `find_pending_urb_req` returns `u` marked sent and
numbered `(old counter + 1) mod 2 ^ 32`, leaves it in place in the queue, and
sets the counter to the same value; the value is `old counter + 1` as long as
the old counter is below `2 ^ 32 - 1`. -/
theorem find_pending_urb_req_first_unsent (s : State) (pre post : List urb_req) (u : urb_req)
    (hq : s.ioctl_q = pre ++ u :: post)
    (hpre : ∀ v ∈ pre, v.sent = true)
    (hu : u.sent = false) :
    (find_pending_urb_req s).1 =
        some { irp := u.irp, seq_num := (s.seq_num + 1) % 2 ^ 32, sent := true } ∧
    (find_pending_urb_req s).2.ioctl_q =
        pre ++ { irp := u.irp, seq_num := (s.seq_num + 1) % 2 ^ 32, sent := true } :: post ∧
    (find_pending_urb_req s).2.seq_num = (s.seq_num + 1) % 2 ^ 32 ∧
    (s.seq_num + 1 < 2 ^ 32 → (s.seq_num + 1) % 2 ^ 32 = s.seq_num + 1) := by
  rw [find_pending_urb_req, hq, find_pending_urb_req_loop_unsent s u post hu pre [] hpre]
  refine ⟨?_, ?_, ?_, fun h => Nat.mod_eq_of_lt h⟩ <;> simp [incr32]

/-- C5 at a concrete queue: the second of three objects is the first unsent one. -/
theorem find_pending_urb_req_first_unsent_witness :
    (s_three.ioctl_q = [{ irp := 1, seq_num := 4, sent := true }] ++
        { irp := 2, seq_num := 0, sent := false } :: [{ irp := 3, seq_num := 5, sent := true }]) ∧
    (find_pending_urb_req s_three).1 = some { irp := 2, seq_num := 6, sent := true } ∧
    (find_pending_urb_req s_three).2.ioctl_q =
      [{ irp := 1, seq_num := 4, sent := true }, { irp := 2, seq_num := 6, sent := true },
       { irp := 3, seq_num := 5, sent := true }] ∧
    (find_pending_urb_req s_three).2.seq_num = 6 :=
  ⟨rfl,
   (find_pending_urb_req_first_unsent s_three [{ irp := 1, seq_num := 4, sent := true }]
      [{ irp := 3, seq_num := 5, sent := true }] { irp := 2, seq_num := 0, sent := false }
      rfl (by decide) rfl).1,
   (find_pending_urb_req_first_unsent s_three [{ irp := 1, seq_num := 4, sent := true }]
      [{ irp := 3, seq_num := 5, sent := true }] { irp := 2, seq_num := 0, sent := false }
      rfl (by decide) rfl).2.1,
   (find_pending_urb_req_first_unsent s_three [{ irp := 1, seq_num := 4, sent := true }]
      [{ irp := 3, seq_num := 5, sent := true }] { irp := 2, seq_num := 0, sent := false }
      rfl (by decide) rfl).2.2.1⟩

/-- C5 (counterexample): with the counter at `2 ^ 32 - 1` and one unsent
object queued, the object returned carries sequence number 0 and the counter
becomes 0, neither of which is the old counter plus one. -/
theorem find_pending_urb_req_wraps :
    (∃ u ∈ s_wrap.ioctl_q, u.sent = false) ∧
    (find_pending_urb_req s_wrap).1 = some { irp := 1, seq_num := 0, sent := true } ∧
    ¬ ((find_pending_urb_req s_wrap).1.map urb_req.seq_num = some (s_wrap.seq_num + 1)) ∧
    ¬ ((find_pending_urb_req s_wrap).2.seq_num = s_wrap.seq_num + 1) := by
  decide

/-! ## `insert_urb_req` -/

/-- Line 145 detects a cancellation exactly when `Cancel` was already set and
`IoCancelIrp` has not taken the routine that line 144 registered. -/
theorem insert_urb_req_fst (races : Bool) (s : State) (u : urb_req) :
    (insert_urb_req races s u).1 = !(!races && (s.irps u.irp).Cancel) := by
  cases races <;> cases h : (s.irps u.irp).Cancel <;>
    simp [insert_urb_req, cancel_check, registered_irp, IoSetCancelRoutine, IoCancelIrp_begin, h]

/-- The object is linked at the tail exactly when `insert_urb_req` answers `TRUE`. -/
theorem insert_urb_req_queue (races : Bool) (s : State) (u : urb_req) :
    (insert_urb_req races s u).2.ioctl_q =
      if (insert_urb_req races s u).1 then s.ioctl_q ++ [u] else s.ioctl_q := by
  cases races <;> cases h : (s.irps u.irp).Cancel <;>
    simp [insert_urb_req, cancel_check, registered_irp, IoSetCancelRoutine, IoCancelIrp_begin, h]

/-- What `insert_urb_req` never touches: the counter, the reader slot, the
trace and the status of every IRP. -/
theorem insert_urb_req_frame (races : Bool) (s : State) (u : urb_req) :
    (insert_urb_req races s u).2.seq_num = s.seq_num ∧
    (insert_urb_req races s u).2.pending_read_irp = s.pending_read_irp ∧
    (insert_urb_req races s u).2.trace = s.trace ∧
    ∀ p, ((insert_urb_req races s u).2.irps p).Status = (s.irps p).Status := by
  cases races <;> cases h : (s.irps u.irp).Cancel <;>
    simp [insert_urb_req, cancel_check, registered_irp, IoSetCancelRoutine, IoCancelIrp_begin, h,
      setIrp, IoMarkIrpPending] <;> intro p <;> split <;> simp_all

/-! ## `submit_urb_req` -/

/-- After line 184 the reader carries the status `process_urb_req` returned. -/
theorem call_process_urb_req_status (env : Env) (s : State) (read_irp : PIRP) (u : urb_req) :
    ((call_process_urb_req env s read_irp u).irps read_irp).Status = env.process_urb_req read_irp u := by
  simp [call_process_urb_req, setIrp, setStatus]

/-- Line 184 leaves the `Cancel` flag of every IRP as it is. -/
theorem call_process_urb_req_cancel (env : Env) (s : State) (read_irp : PIRP) (u : urb_req)
    (p : PIRP) :
    ((call_process_urb_req env s read_irp u).irps p).Cancel = (s.irps p).Cancel := by
  simp only [call_process_urb_req, setIrp, setStatus]
  split <;> simp_all

/-- Without a waiting reader `submit_urb_req` is `insert_urb_req` on the fresh object. -/
theorem submit_urb_req_no_reader (env : Env) (s : State) (irp : PIRP)
    (hread : s.pending_read_irp = none) (halloc : env.alloc = true) :
    submit_urb_req env s irp =
      if (insert_urb_req env.cancel_races s { irp := irp, seq_num := 0, sent := false }).1 = false then
        (STATUS_CANCELLED,
         ExFreeToNPagedLookasideList
           (insert_urb_req env.cancel_races s { irp := irp, seq_num := 0, sent := false }).2
           { irp := irp, seq_num := 0, sent := false })
      else
        (STATUS_PENDING,
         (insert_urb_req env.cancel_races s { irp := irp, seq_num := 0, sent := false }).2) := by
  have hs : { s with pending_read_irp := none } = s := by
    cases s; simp_all
  simp [submit_urb_req, create_urb_req, halloc, hread, hs]

/-- With a waiting reader `submit_urb_req` clears the slot, numbers the fresh
object and goes on to lines 184-201. -/
theorem submit_urb_req_reader (env : Env) (s : State) (irp read_irp : PIRP)
    (hread : s.pending_read_irp = some read_irp) (halloc : env.alloc = true) :
    submit_urb_req env s irp =
      submit_urb_req_paired env { s with pending_read_irp := none, seq_num := incr32 s.seq_num }
        read_irp { irp := irp, seq_num := incr32 s.seq_num, sent := false } := by
  simp [submit_urb_req, create_urb_req, halloc, hread]

/-- Lines 184-201 when `process_urb_req` does not return `STATUS_SUCCESS`. -/
theorem submit_urb_req_paired_failure (env : Env) (s : State) (read_irp : PIRP) (u : urb_req)
    (hst : env.process_urb_req read_irp u ≠ STATUS_SUCCESS) :
    (submit_urb_req_paired env s read_irp u).1 = STATUS_INVALID_PARAMETER ∧
    (submit_urb_req_paired env s read_irp u).2.trace =
      s.trace ++ [Event.encode read_irp u, Event.free u,
                  Event.complete read_irp (env.process_urb_req read_irp u)] ∧
    (submit_urb_req_paired env s read_irp u).2.ioctl_q = s.ioctl_q ∧
    (submit_urb_req_paired env s read_irp u).2.seq_num = s.seq_num ∧
    (submit_urb_req_paired env s read_irp u).2.pending_read_irp = s.pending_read_irp := by
  simp only [submit_urb_req_paired, call_process_urb_req_status, hst, if_false]
  simp [IoCompleteRequest, ExFreeToNPagedLookasideList, call_process_urb_req, setIrp, setStatus]

/-- Lines 184-201 when `process_urb_req` returns `STATUS_SUCCESS`. -/
theorem submit_urb_req_paired_success (env : Env) (s : State) (read_irp : PIRP) (u : urb_req)
    (hst : env.process_urb_req read_irp u = STATUS_SUCCESS) :
    (submit_urb_req_paired env s read_irp u).1 =
      (if (!env.cancel_races && (s.irps u.irp).Cancel) then STATUS_CANCELLED else STATUS_PENDING) ∧
    (submit_urb_req_paired env s read_irp u).2.trace =
      (if (!env.cancel_races && (s.irps u.irp).Cancel) then
        s.trace ++ [Event.encode read_irp u, Event.free { u with sent := true },
                    Event.complete read_irp STATUS_SUCCESS]
       else s.trace ++ [Event.encode read_irp u, Event.complete read_irp STATUS_SUCCESS]) ∧
    (submit_urb_req_paired env s read_irp u).2.ioctl_q =
      (if (!env.cancel_races && (s.irps u.irp).Cancel) then s.ioctl_q
       else s.ioctl_q ++ [{ u with sent := true }]) ∧
    (submit_urb_req_paired env s read_irp u).2.seq_num = s.seq_num ∧
    (submit_urb_req_paired env s read_irp u).2.pending_read_irp = s.pending_read_irp := by
  have hne : STATUS_PENDING ≠ STATUS_CANCELLED := by decide
  have h2 := call_process_urb_req_status env s read_irp u
  have h1 := call_process_urb_req_cancel env s read_irp u u.irp
  have hf := insert_urb_req_fst env.cancel_races (call_process_urb_req env s read_irp u)
    { u with sent := true }
  have hfq := insert_urb_req_queue env.cancel_races (call_process_urb_req env s read_irp u)
    { u with sent := true }
  obtain ⟨f1, f2, f3, f4⟩ := insert_urb_req_frame env.cancel_races
    (call_process_urb_req env s read_irp u) { u with sent := true }
  simp only [h1] at hf
  simp only [submit_urb_req_paired, h2, hst, if_true]
  cases hd : (!env.cancel_races && (s.irps u.irp).Cancel) <;>
    simp only [hd] at hf <;>
    simp [hf, hne, hne.symm, IoCompleteRequest, ExFreeToNPagedLookasideList, f1, f2, f3, f4, h2,
      hst, hfq] <;>
    simp [call_process_urb_req]

/-- The allocation failure path (line 164): nothing has been touched. -/
theorem submit_urb_req_alloc_fails (env : Env) (s : State) (irp : PIRP)
    (halloc : env.alloc = false) :
    submit_urb_req env s irp = (STATUS_INSUFFICIENT_RESOURCES, s) := by
  simp [submit_urb_req, create_urb_req, halloc]

/-- C9: when the lookaside list has no object, `submit_urb_req` returns
`STATUS_INSUFFICIENT_RESOURCES` and the state (queue, counter, reader slot,
IRPs, trace of outgoing calls, hence no call of `process_urb_req`) is unchanged. -/
theorem submit_urb_req_pool_exhausted (env : Env) (s : State) (irp : PIRP)
    (halloc : env.alloc = false) :
    (submit_urb_req env s irp).1 = STATUS_INSUFFICIENT_RESOURCES ∧
    (submit_urb_req env s irp).2 = s ∧
    (submit_urb_req env s irp).2.ioctl_q = s.ioctl_q ∧
    (submit_urb_req env s irp).2.seq_num = s.seq_num ∧
    (submit_urb_req env s irp).2.pending_read_irp = s.pending_read_irp ∧
    (submit_urb_req env s irp).2.trace = s.trace := by
  rw [submit_urb_req_alloc_fails env s irp halloc]
  simp

/-- C9 at a concrete controller: a reader waits, the pool is empty. -/
theorem submit_urb_req_pool_exhausted_witness :
    env_no_memory.alloc = false ∧
    (submit_urb_req env_no_memory s_reader 7).1 = STATUS_INSUFFICIENT_RESOURCES ∧
    (submit_urb_req env_no_memory s_reader 7).2 = s_reader ∧
    (submit_urb_req env_no_memory s_reader 7).2.ioctl_q = s_reader.ioctl_q ∧
    (submit_urb_req env_no_memory s_reader 7).2.seq_num = s_reader.seq_num ∧
    (submit_urb_req env_no_memory s_reader 7).2.pending_read_irp = s_reader.pending_read_irp ∧
    (submit_urb_req env_no_memory s_reader 7).2.trace = s_reader.trace :=
  ⟨rfl, submit_urb_req_pool_exhausted env_no_memory s_reader 7 rfl⟩

/-- C6: no reader waits, the pool has an object and line 145 detects no
cancellation (`Cancel` is clear, or `IoCancelIrp` has already taken the
routine): `submit_urb_req` returns `STATUS_PENDING`, the queue gains the new
object `(irp, seq_num 0, sent false)` at the tail, the counter and the reader
slot are unchanged and no outgoing call is made. -/
theorem submit_urb_req_enqueues (env : Env) (s : State) (irp : PIRP)
    (hread : s.pending_read_irp = none) (halloc : env.alloc = true)
    (hnc : env.cancel_races = true ∨ (s.irps irp).Cancel = false) :
    (submit_urb_req env s irp).1 = STATUS_PENDING ∧
    (submit_urb_req env s irp).2.ioctl_q = s.ioctl_q ++ [{ irp := irp, seq_num := 0, sent := false }] ∧
    (submit_urb_req env s irp).2.seq_num = s.seq_num ∧
    (submit_urb_req env s irp).2.pending_read_irp = none ∧
    (submit_urb_req env s irp).2.trace = s.trace := by
  have hf : (insert_urb_req env.cancel_races s { irp := irp, seq_num := 0, sent := false }).1
      = true := by
    rw [insert_urb_req_fst]; rcases hnc with h | h <;> simp [h]
  have hq := insert_urb_req_queue env.cancel_races s { irp := irp, seq_num := 0, sent := false }
  obtain ⟨f1, f2, f3, _⟩ :=
    insert_urb_req_frame env.cancel_races s { irp := irp, seq_num := 0, sent := false }
  rw [submit_urb_req_no_reader env s irp hread halloc]
  simp [hf, hq, f1, f2, f3, hread]

/-- C6 at the initial controller. -/
theorem submit_urb_req_enqueues_witness :
    s_init.pending_read_irp = none ∧ env_success.alloc = true ∧
    (submit_urb_req env_success s_init 7).1 = STATUS_PENDING ∧
    (submit_urb_req env_success s_init 7).2.ioctl_q =
      s_init.ioctl_q ++ [{ irp := 7, seq_num := 0, sent := false }] ∧
    (submit_urb_req env_success s_init 7).2.seq_num = s_init.seq_num ∧
    (submit_urb_req env_success s_init 7).2.pending_read_irp = none ∧
    (submit_urb_req env_success s_init 7).2.trace = s_init.trace :=
  ⟨rfl, rfl, submit_urb_req_enqueues env_success s_init 7 rfl rfl (Or.inr rfl)⟩

/-- C10: no reader waits, the pool has an object, the submitted IRP is already
marked cancelled and the routine registered at line 144 is still in place
when line 145 takes it back: `submit_urb_req` returns `STATUS_CANCELLED`, the
only outgoing call is one `ExFreeToNPagedLookasideList` of the new object,
and the queue and the counter are unchanged. -/
theorem submit_urb_req_cancelled (env : Env) (s : State) (irp : PIRP)
    (hread : s.pending_read_irp = none) (halloc : env.alloc = true)
    (hcancel : (s.irps irp).Cancel = true) (hrace : env.cancel_races = false) :
    (submit_urb_req env s irp).1 = STATUS_CANCELLED ∧
    (submit_urb_req env s irp).2.trace =
      s.trace ++ [Event.free { irp := irp, seq_num := 0, sent := false }] ∧
    (submit_urb_req env s irp).2.ioctl_q = s.ioctl_q ∧
    (submit_urb_req env s irp).2.seq_num = s.seq_num := by
  have hf : (insert_urb_req env.cancel_races s { irp := irp, seq_num := 0, sent := false }).1
      = false := by
    rw [insert_urb_req_fst]; simp [hcancel, hrace]
  have hq := insert_urb_req_queue env.cancel_races s { irp := irp, seq_num := 0, sent := false }
  obtain ⟨f1, _, f3, _⟩ :=
    insert_urb_req_frame env.cancel_races s { irp := irp, seq_num := 0, sent := false }
  rw [submit_urb_req_no_reader env s irp hread halloc]
  simp only [hf, if_true, ExFreeToNPagedLookasideList, f1, f3]
  simp [hq, hf]

/-- C10 at a concrete controller whose IRPs are marked cancelled. -/
theorem submit_urb_req_cancelled_witness :
    s_cancelled.pending_read_irp = none ∧ (s_cancelled.irps 7).Cancel = true ∧
    (submit_urb_req env_success s_cancelled 7).1 = STATUS_CANCELLED ∧
    (submit_urb_req env_success s_cancelled 7).2.trace =
      s_cancelled.trace ++ [Event.free { irp := 7, seq_num := 0, sent := false }] ∧
    (submit_urb_req env_success s_cancelled 7).2.ioctl_q = s_cancelled.ioctl_q ∧
    (submit_urb_req env_success s_cancelled 7).2.seq_num = s_cancelled.seq_num :=
  ⟨rfl, rfl, submit_urb_req_cancelled env_success s_cancelled 7 rfl rfl rfl rfl⟩

/-- C7 (as amended): a reader waits, the pool has an object,
`process_urb_req` returns `STATUS_SUCCESS` and line 145 detects no
cancellation.  Then the reader slot is cleared, the outgoing calls are exactly
one `process_urb_req(reader, new object)` followed by the completion of the
reader with `STATUS_SUCCESS`, the new object is at the queue tail with
`sent` set and sequence number `(old counter + 1) mod 2 ^ 32`, which is also
the new counter; that value is `old counter + 1` whenever the old counter is
below `2 ^ 32 - 1`. -/
theorem submit_urb_req_pairs_with_reader (env : Env) (s : State) (irp read_irp : PIRP)
    (hread : s.pending_read_irp = some read_irp) (halloc : env.alloc = true)
    (hst : env.process_urb_req read_irp
      { irp := irp, seq_num := (s.seq_num + 1) % 2 ^ 32, sent := false } = STATUS_SUCCESS)
    (hnc : env.cancel_races = true ∨ (s.irps irp).Cancel = false) :
    (submit_urb_req env s irp).2.pending_read_irp = none ∧
    (submit_urb_req env s irp).2.trace =
      s.trace ++ [Event.encode read_irp { irp := irp, seq_num := (s.seq_num + 1) % 2 ^ 32, sent := false },
                  Event.complete read_irp STATUS_SUCCESS] ∧
    (submit_urb_req env s irp).2.ioctl_q =
      s.ioctl_q ++ [{ irp := irp, seq_num := (s.seq_num + 1) % 2 ^ 32, sent := true }] ∧
    (submit_urb_req env s irp).2.seq_num = (s.seq_num + 1) % 2 ^ 32 ∧
    (s.seq_num + 1 < 2 ^ 32 → (s.seq_num + 1) % 2 ^ 32 = s.seq_num + 1) := by
  have hd : (!env.cancel_races && (s.irps irp).Cancel) = false := by
    rcases hnc with h | h <;> simp [h]
  obtain ⟨_, h2, h3, h4, h5⟩ := submit_urb_req_paired_success env
    { s with pending_read_irp := none, seq_num := incr32 s.seq_num } read_irp
    { irp := irp, seq_num := incr32 s.seq_num, sent := false } hst
  rw [submit_urb_req_reader env s irp read_irp hread halloc]
  simp only [hd] at h2 h3
  exact ⟨h5, by simpa [incr32] using h2, by simpa [incr32] using h3, by simpa [incr32] using h4,
    fun h => Nat.mod_eq_of_lt h⟩

/-- C7 at a concrete controller: reader 9 waits, counter 0, IRP 7 is submitted. -/
theorem submit_urb_req_pairs_with_reader_witness :
    s_reader.pending_read_irp = some 9 ∧
    (submit_urb_req env_success s_reader 7).2.pending_read_irp = none ∧
    (submit_urb_req env_success s_reader 7).2.trace =
      s_reader.trace ++ [Event.encode 9 { irp := 7, seq_num := (s_reader.seq_num + 1) % 2 ^ 32, sent := false },
                  Event.complete 9 STATUS_SUCCESS] ∧
    (submit_urb_req env_success s_reader 7).2.ioctl_q =
      s_reader.ioctl_q ++ [{ irp := 7, seq_num := (s_reader.seq_num + 1) % 2 ^ 32, sent := true }] ∧
    (submit_urb_req env_success s_reader 7).2.seq_num = (s_reader.seq_num + 1) % 2 ^ 32 ∧
    (s_reader.seq_num + 1 < 2 ^ 32 → (s_reader.seq_num + 1) % 2 ^ 32 = s_reader.seq_num + 1) :=
  ⟨rfl, submit_urb_req_pairs_with_reader env_success s_reader 7 9 rfl rfl rfl (Or.inr rfl)⟩

/-- C7 (counterexample): reader 9 waits, the counter is `2 ^ 32 - 1`,
`process_urb_req` succeeds and nothing is cancelled; the object enqueued
carries sequence number 0 and the counter becomes 0, not the old counter plus one. -/
theorem submit_urb_req_reader_seq_num_wraps :
    s_reader_wrap.pending_read_irp = some 9 ∧
    (submit_urb_req env_success s_reader_wrap 7).2.ioctl_q = [{ irp := 7, seq_num := 0, sent := true }] ∧
    (submit_urb_req env_success s_reader_wrap 7).2.seq_num = 0 ∧
    ¬ ((submit_urb_req env_success s_reader_wrap 7).2.ioctl_q =
        s_reader_wrap.ioctl_q ++ [{ irp := 7, seq_num := s_reader_wrap.seq_num + 1, sent := true }]) ∧
    ¬ ((submit_urb_req env_success s_reader_wrap 7).2.seq_num = s_reader_wrap.seq_num + 1) := by
  decide

/-- C8 (as amended): a reader waits, the pool has an object and
`process_urb_req` returns a status other than `STATUS_SUCCESS`.  Then the
outgoing calls are the one `process_urb_req`, one
`ExFreeToNPagedLookasideList` of the new object and the completion of the
reader with the status `process_urb_req` returned; the queue is unchanged and
`submit_urb_req` itself returns `STATUS_INVALID_PARAMETER`. -/
theorem submit_urb_req_encoder_failure (env : Env) (s : State) (irp read_irp : PIRP)
    (hread : s.pending_read_irp = some read_irp) (halloc : env.alloc = true)
    (hst : env.process_urb_req read_irp
      { irp := irp, seq_num := (s.seq_num + 1) % 2 ^ 32, sent := false } ≠ STATUS_SUCCESS) :
    (submit_urb_req env s irp).1 = STATUS_INVALID_PARAMETER ∧
    (submit_urb_req env s irp).2.trace =
      s.trace ++ [Event.encode read_irp { irp := irp, seq_num := (s.seq_num + 1) % 2 ^ 32, sent := false },
                  Event.free { irp := irp, seq_num := (s.seq_num + 1) % 2 ^ 32, sent := false },
                  Event.complete read_irp (env.process_urb_req read_irp
                    { irp := irp, seq_num := (s.seq_num + 1) % 2 ^ 32, sent := false })] ∧
    (submit_urb_req env s irp).2.ioctl_q = s.ioctl_q := by
  obtain ⟨h1, h2, h3, _, _⟩ := submit_urb_req_paired_failure env
    { s with pending_read_irp := none, seq_num := incr32 s.seq_num } read_irp
    { irp := irp, seq_num := incr32 s.seq_num, sent := false } hst
  rw [submit_urb_req_reader env s irp read_irp hread halloc]
  exact ⟨h1, by simpa [incr32] using h2, h3⟩

/-- C8 at a concrete controller: reader 9 waits and `process_urb_req` fails. -/
theorem submit_urb_req_encoder_failure_witness :
    s_reader.pending_read_irp = some 9 ∧
    (submit_urb_req env_failure s_reader 7).1 = STATUS_INVALID_PARAMETER ∧
    (submit_urb_req env_failure s_reader 7).2.trace =
      s_reader.trace ++ [Event.encode 9 { irp := 7, seq_num := (s_reader.seq_num + 1) % 2 ^ 32, sent := false },
                  Event.free { irp := 7, seq_num := (s_reader.seq_num + 1) % 2 ^ 32, sent := false },
                  Event.complete 9 (env_failure.process_urb_req 9
                    { irp := 7, seq_num := (s_reader.seq_num + 1) % 2 ^ 32, sent := false })] ∧
    (submit_urb_req env_failure s_reader 7).2.ioctl_q = s_reader.ioctl_q :=
  ⟨rfl, submit_urb_req_encoder_failure env_failure s_reader 7 9 rfl rfl (by decide)⟩

/-- C8 (counterexample): reader 9 waits and `process_urb_req` fails with
`STATUS_BUFFER_TOO_SMALL`; the reader is completed with `STATUS_BUFFER_TOO_SMALL`, and
no completion with `STATUS_INVALID_PARAMETER` is ever made. -/
theorem submit_urb_req_reader_completed_with_encoder_status :
    s_reader.pending_read_irp = some 9 ∧
    env_failure.process_urb_req 9 { irp := 7, seq_num := 1, sent := false } ≠ STATUS_SUCCESS ∧
    (submit_urb_req env_failure s_reader 7).2.trace =
      [Event.encode 9 { irp := 7, seq_num := 1, sent := false },
       Event.free { irp := 7, seq_num := 1, sent := false },
       Event.complete 9 STATUS_BUFFER_TOO_SMALL] ∧
    Event.complete 9 STATUS_INVALID_PARAMETER ∉ (submit_urb_req env_failure s_reader 7).2.trace := by
  decide

/-- C2 (as amended): when `submit_urb_req` finds a waiting reader (and the
pool has an object), the reader is completed, as the last outgoing call, with
the status `process_urb_req` returned, while `submit_urb_req` returns
`STATUS_PENDING` (encoder success, object enqueued), `STATUS_CANCELLED`
(encoder success, cancellation detected at line 145) or
`STATUS_INVALID_PARAMETER` (encoder failure). -/
theorem submit_urb_req_reader_statuses (env : Env) (s : State) (irp read_irp : PIRP)
    (hread : s.pending_read_irp = some read_irp) (halloc : env.alloc = true) :
    (submit_urb_req env s irp).2.trace.getLast? =
      some (Event.complete read_irp (env.process_urb_req read_irp
        { irp := irp, seq_num := (s.seq_num + 1) % 2 ^ 32, sent := false })) ∧
    (submit_urb_req env s irp).1 =
      (if env.process_urb_req read_irp
            { irp := irp, seq_num := (s.seq_num + 1) % 2 ^ 32, sent := false } = STATUS_SUCCESS then
        (if (!env.cancel_races && (s.irps irp).Cancel) then STATUS_CANCELLED else STATUS_PENDING)
       else STATUS_INVALID_PARAMETER) := by
  rw [submit_urb_req_reader env s irp read_irp hread halloc]
  by_cases hst : env.process_urb_req read_irp
      { irp := irp, seq_num := incr32 s.seq_num, sent := false } = STATUS_SUCCESS
  · obtain ⟨h1, h2, _, _, _⟩ := submit_urb_req_paired_success env
      { s with pending_read_irp := none, seq_num := incr32 s.seq_num } read_irp
      { irp := irp, seq_num := incr32 s.seq_num, sent := false } hst
    have hst2 := hst
    simp only [incr32] at hst2
    rw [h1, h2, hst2]
    cases hd : (!env.cancel_races && (s.irps irp).Cancel) <;> simp [hd]
  · obtain ⟨h1, h2, _, _, _⟩ := submit_urb_req_paired_failure env
      { s with pending_read_irp := none, seq_num := incr32 s.seq_num } read_irp
      { irp := irp, seq_num := incr32 s.seq_num, sent := false } hst
    have hst2 := hst
    simp only [incr32] at hst2
    rw [h1, h2, if_neg hst2]
    simp [incr32]

/-- C2 at a concrete controller: reader 9 waits and `process_urb_req` fails. -/
theorem submit_urb_req_reader_statuses_witness :
    s_reader.pending_read_irp = some 9 ∧
    (submit_urb_req env_failure s_reader 7).2.trace.getLast? =
      some (Event.complete 9 (env_failure.process_urb_req 9
        { irp := 7, seq_num := (s_reader.seq_num + 1) % 2 ^ 32, sent := false })) ∧
    (submit_urb_req env_failure s_reader 7).1 =
      (if env_failure.process_urb_req 9
            { irp := 7, seq_num := (s_reader.seq_num + 1) % 2 ^ 32, sent := false } = STATUS_SUCCESS then
        (if (!env_failure.cancel_races && (s_reader.irps 7).Cancel) then STATUS_CANCELLED
         else STATUS_PENDING)
       else STATUS_INVALID_PARAMETER) :=
  ⟨rfl, submit_urb_req_reader_statuses env_failure s_reader 7 9 rfl rfl⟩

/-- C2 (counterexample): with reader 9 waiting and `process_urb_req`
succeeding, `submit_urb_req` returns `STATUS_PENDING` when the object is
enqueued and `STATUS_CANCELLED` when the cancellation is detected, while the
reader is completed with `STATUS_SUCCESS` both times. -/
theorem submit_urb_req_status_differs_from_reader_status :
    s_reader.pending_read_irp = some 9 ∧
    (submit_urb_req env_success s_reader 7).1 = STATUS_PENDING ∧
    (submit_urb_req env_success s_reader 7).2.trace.getLast? = some (Event.complete 9 STATUS_SUCCESS) ∧
    s_reader_cancelled.pending_read_irp = some 9 ∧
    (submit_urb_req env_success s_reader_cancelled 7).1 = STATUS_CANCELLED ∧
    (submit_urb_req env_success s_reader_cancelled 7).2.trace.getLast? =
      some (Event.complete 9 STATUS_SUCCESS) ∧
    STATUS_PENDING ≠ STATUS_SUCCESS ∧ STATUS_CANCELLED ≠ STATUS_SUCCESS := by
  decide

/-! ## Sequence numbers along a run -/

/-- The loop of `find_urb_req` never changes the counter. -/
theorem find_urb_req_loop_seq_num (s : State) (seqnum : Nat) :
    ∀ (rest visited : List urb_req) (urb_r : Option urb_req),
      (find_urb_req_loop s seqnum visited rest urb_r).2.seq_num = s.seq_num := by
  intro rest
  induction rest with
  | nil => intro visited urb_r; rfl
  | cons u rest ih =>
    intro visited urb_r
    rw [find_urb_req_loop]
    split
    · split <;> rfl
    · exact ih _ _

/-- The loop of `remove_cancelled_urb_req` never changes the counter. -/
theorem remove_cancelled_urb_req_loop_seq_num (s : State) (irp : PIRP) :
    ∀ (rest visited : List urb_req),
      (remove_cancelled_urb_req_loop s irp visited rest).seq_num = s.seq_num := by
  intro rest
  induction rest with
  | nil => intro visited; rfl
  | cons u rest ih =>
    intro visited
    rw [remove_cancelled_urb_req_loop]
    split
    · rfl
    · exact ih _

/-- The cancellation callback never changes the counter. -/
theorem cancel_urb_req_seq_num (s : State) (irp : PIRP) :
    (cancel_urb_req s irp).seq_num = s.seq_num := by
  simp only [cancel_urb_req, complete_cancelled, IoCompleteRequest, remove_cancelled_urb_req]
  rw [remove_cancelled_urb_req_loop_seq_num]

/-- The cancellation path never changes the counter. -/
theorem IoCancelIrp_seq_num (s : State) (irp : PIRP) :
    (IoCancelIrp s irp).seq_num = s.seq_num := by
  unfold IoCancelIrp
  split
  · simp only [cancel_urb_req, complete_cancelled, IoCompleteRequest, remove_cancelled_urb_req]
    rw [remove_cancelled_urb_req_loop_seq_num]
  · rfl

/-- The loop of `find_pending_urb_req` either assigns nothing and keeps the
counter, or assigns the incremented counter and stores it. -/
theorem find_pending_urb_req_loop_assigns (s : State) :
    ∀ (rest visited : List urb_req),
      ((find_pending_urb_req_loop s visited rest).1.toList.map urb_req.seq_num = [] ∧
        (find_pending_urb_req_loop s visited rest).2.seq_num = s.seq_num) ∨
      ((find_pending_urb_req_loop s visited rest).1.toList.map urb_req.seq_num = [incr32 s.seq_num] ∧
        (find_pending_urb_req_loop s visited rest).2.seq_num = incr32 s.seq_num) := by
  intro rest
  induction rest with
  | nil => intro visited; left; exact ⟨rfl, rfl⟩
  | cons u rest ih =>
    intro visited
    rw [find_pending_urb_req_loop]
    split
    · right; exact ⟨rfl, rfl⟩
    · exact ih _

/-- The function `submit_urb_req` either hands nothing to `process_urb_req` and keeps the
counter, or hands over one object numbered with the incremented counter. -/
theorem submit_urb_req_assigns (env : Env) (s : State) (irp : PIRP) :
    ((((submit_urb_req env s irp).2.trace.drop s.trace.length).filterMap encoded_seq = [] ∧
        (submit_urb_req env s irp).2.seq_num = s.seq_num) ∨
      (((submit_urb_req env s irp).2.trace.drop s.trace.length).filterMap encoded_seq
          = [incr32 s.seq_num] ∧
        (submit_urb_req env s irp).2.seq_num = incr32 s.seq_num)) := by
  cases halloc : env.alloc with
  | false =>
    left
    rw [submit_urb_req_alloc_fails env s irp halloc]
    simp
  | true =>
    cases hread : s.pending_read_irp with
    | none =>
      left
      obtain ⟨f1, _, f3, _⟩ :=
        insert_urb_req_frame env.cancel_races s { irp := irp, seq_num := 0, sent := false }
      rw [submit_urb_req_no_reader env s irp hread halloc]
      split <;> simp [ExFreeToNPagedLookasideList, f1, f3, encoded_seq]
    | some read_irp =>
      right
      rw [submit_urb_req_reader env s irp read_irp hread halloc]
      by_cases hst : env.process_urb_req read_irp
          { irp := irp, seq_num := incr32 s.seq_num, sent := false } = STATUS_SUCCESS
      · obtain ⟨_, h2, _, h4, _⟩ := submit_urb_req_paired_success env
          { s with pending_read_irp := none, seq_num := incr32 s.seq_num } read_irp
          { irp := irp, seq_num := incr32 s.seq_num, sent := false } hst
        rw [h2, h4]
        split <;> simp [encoded_seq]
      · obtain ⟨_, h2, _, h4, _⟩ := submit_urb_req_paired_failure env
          { s with pending_read_irp := none, seq_num := incr32 s.seq_num } read_irp
          { irp := irp, seq_num := incr32 s.seq_num, sent := false } hst
        rw [h2, h4]
        simp [encoded_seq]

/-- Every operation assigns no number and keeps the counter, or assigns the
incremented counter and stores it. -/
theorem step_assigns (s : State) (op : Op) :
    ((step s op).1 = [] ∧ (step s op).2.seq_num = s.seq_num) ∨
    ((step s op).1 = [incr32 s.seq_num] ∧ (step s op).2.seq_num = incr32 s.seq_num) := by
  cases op with
  | submit env irp => exact submit_urb_req_assigns env s irp
  | take_next_pending => exact find_pending_urb_req_loop_assigns s s.ioctl_q []
  | find_by_sequence seqnum =>
    left; exact ⟨rfl, find_urb_req_loop_seq_num s seqnum s.ioctl_q [] none⟩
  | cancel irp => left; exact ⟨rfl, IoCancelIrp_seq_num s irp⟩
  | wait_read read_irp => left; exact ⟨rfl, rfl⟩
  | cancel_begin irp => left; exact ⟨rfl, rfl⟩
  | cancel_callback irp => left; exact ⟨rfl, cancel_urb_req_seq_num s irp⟩

/-- As long as the counter cannot reach `2 ^ 32` the numbers assigned along a
run are the consecutive values after the starting counter. -/
theorem run_assigns (ops : List Op) :
    ∀ s : State, s.seq_num + ops.length < 2 ^ 32 →
      ∃ k, k ≤ ops.length ∧ (run s ops).1 = List.range' (s.seq_num + 1) k ∧
        (run s ops).2.seq_num = s.seq_num + k := by
  induction ops with
  | nil => intro s _; exact ⟨0, Nat.le_refl _, rfl, rfl⟩
  | cons op ops ih =>
    intro s h
    simp only [List.length_cons] at h
    rcases step_assigns s op with ⟨h1, h2⟩ | ⟨h1, h2⟩
    · obtain ⟨k, hk, hr, hc⟩ := ih (step s op).2 (by rw [h2]; omega)
      refine ⟨k, by simp only [List.length_cons]; omega, ?_, ?_⟩
      · simp only [run, h1, List.nil_append, hr, h2]
      · simp only [run, hc, h2]
    · have hinc : incr32 s.seq_num = s.seq_num + 1 := by
        unfold incr32; exact Nat.mod_eq_of_lt (by omega)
      obtain ⟨k, hk, hr, hc⟩ := ih (step s op).2 (by rw [h2, hinc]; omega)
      refine ⟨k + 1, by simp only [List.length_cons]; omega, ?_, ?_⟩
      · simp only [run, h1, hr, h2, hinc, List.range'_succ, List.singleton_append]
      · simp only [run, hc, h2, hinc]; omega

/-- Only submit and take-next-pending assign sequence numbers, one each at most. -/
theorem run_length_le (ops : List Op) :
    ∀ s : State, (run s ops).1.length ≤ assigning_ops ops := by
  induction ops with
  | nil => intro s; exact Nat.le_refl _
  | cons op ops ih =>
    intro s
    have hrest := ih (step s op).2
    have hone : (step s op).1.length ≤ 1 := by
      rcases step_assigns s op with ⟨h1, _⟩ | ⟨h1, _⟩ <;> simp [h1]
    simp only [run, List.length_append]
    cases op with
    | submit env irp => simp only [assigning_ops]; omega
    | take_next_pending => simp only [assigning_ops]; omega
    | find_by_sequence seqnum =>
      have h0 : (step s (Op.find_by_sequence seqnum)).1.length = 0 := rfl
      simp only [assigning_ops]; omega
    | cancel irp =>
      have h0 : (step s (Op.cancel irp)).1.length = 0 := rfl
      simp only [assigning_ops]; omega
    | wait_read read_irp =>
      have h0 : (step s (Op.wait_read read_irp)).1.length = 0 := rfl
      simp only [assigning_ops]; omega
    | cancel_begin irp =>
      have h0 : (step s (Op.cancel_begin irp)).1.length = 0 := rfl
      simp only [assigning_ops]; omega
    | cancel_callback irp =>
      have h0 : (step s (Op.cancel_callback irp)).1.length = 0 := rfl
      simp only [assigning_ops]; omega

/-- When the numbers a run assigns do not take the counter to `2 ^ 32`, they
are the consecutive values after the starting counter. -/
theorem run_assigns_exact (ops : List Op) :
    ∀ s : State, s.seq_num + (run s ops).1.length < 2 ^ 32 →
      (run s ops).1 = List.range' (s.seq_num + 1) (run s ops).1.length ∧
        (run s ops).2.seq_num = s.seq_num + (run s ops).1.length := by
  induction ops with
  | nil => intro s _; exact ⟨rfl, rfl⟩
  | cons op ops ih =>
    intro s h
    simp only [run, List.length_append] at h ⊢
    rcases step_assigns s op with ⟨h1, h2⟩ | ⟨h1, h2⟩
    · rw [h1] at h ⊢
      simp only [List.length_nil, Nat.zero_add, List.nil_append] at h ⊢
      have := ih (step s op).2 (by rw [h2]; exact h)
      rw [h2] at this
      exact this
    · rw [h1] at h ⊢
      simp only [List.length_singleton] at h
      have hinc : incr32 s.seq_num = s.seq_num + 1 := by
        unfold incr32; exact Nat.mod_eq_of_lt (by omega)
      obtain ⟨i1, i2⟩ := ih (step s op).2 (by rw [h2, hinc]; omega)
      rw [h2, hinc] at i1 i2
      refine ⟨?_, ?_⟩
      · simp only [List.length_singleton, List.singleton_append, hinc]
        rw [Nat.add_comm 1, List.range'_succ]
        exact congrArg _ i1
      · simp only [List.length_singleton]
        rw [i2]; omega

/-- C3 (as amended): for every sequence of operations (submit and
take-next-pending, also interleaved with find-by-sequence, cancellation and
parking of a reader) on a controller with counter `c`: the run assigns at
most as many sequence numbers as it has submit and take-next-pending
operations, and when the `k` numbers it assigns satisfy `c + k < 2 ^ 32`
(so in particular when `c + n < 2 ^ 32` for the number `n` of submit and
take-next-pending operations) they are, in assignment order,
`c + 1, ..., c + k`: strictly increasing, pairwise distinct and non-zero. -/
theorem sequence_numbers_strictly_increasing (s : State) (ops : List Op) :
    (run s ops).1.length ≤ assigning_ops ops ∧
    (s.seq_num + (run s ops).1.length < 2 ^ 32 →
      List.Pairwise (fun a b => a < b) (run s ops).1 ∧
      (run s ops).1.Nodup ∧
      (∀ n ∈ (run s ops).1, n ≠ 0) ∧
      (run s ops).1 = List.range' (s.seq_num + 1) (run s ops).1.length) ∧
    (s.seq_num + assigning_ops ops < 2 ^ 32 →
      List.Pairwise (fun a b => a < b) (run s ops).1 ∧
      (run s ops).1.Nodup ∧
      (∀ n ∈ (run s ops).1, n ≠ 0) ∧
      (run s ops).1 = List.range' (s.seq_num + 1) (run s ops).1.length) := by
  have hle := run_length_le ops s
  have key : s.seq_num + (run s ops).1.length < 2 ^ 32 →
      List.Pairwise (fun a b => a < b) (run s ops).1 ∧
      (run s ops).1.Nodup ∧
      (∀ n ∈ (run s ops).1, n ≠ 0) ∧
      (run s ops).1 = List.range' (s.seq_num + 1) (run s ops).1.length := by
    intro h
    obtain ⟨hr, _⟩ := run_assigns_exact ops s h
    refine ⟨?_, ?_, ?_, hr⟩
    · rw [hr]; exact List.pairwise_lt_range' _ _
    · rw [hr]; exact List.nodup_range' _ _
    · intro n hn
      rw [hr, List.mem_range'_1] at hn
      omega
  exact ⟨hle, key, fun h => key (by omega)⟩

/-- C3 at concrete runs.  From the initial controller: a reader is parked, a
submit is paired with it (number 1), a second submit is queued and then taken
(number 2).  From counter `2 ^ 32 - 2`: a reader is parked and one submit is
paired with it (number `2 ^ 32 - 1`); two operations, one of them assigning. -/
theorem sequence_numbers_strictly_increasing_witness :
    (run s_init [Op.wait_read 9, Op.submit env_success 7, Op.submit env_success 8,
        Op.take_next_pending]).1 = [1, 2] ∧
    List.Pairwise (fun a b => a < b) (run s_init [Op.wait_read 9, Op.submit env_success 7,
        Op.submit env_success 8, Op.take_next_pending]).1 ∧
    s_near_wrap.seq_num + assigning_ops [Op.wait_read 9, Op.submit env_success 7] < 2 ^ 32 ∧
    (run s_near_wrap [Op.wait_read 9, Op.submit env_success 7]).1 = [4294967295] ∧
    (∀ n ∈ (run s_near_wrap [Op.wait_read 9, Op.submit env_success 7]).1, n ≠ 0) :=
  ⟨by decide,
   ((sequence_numbers_strictly_increasing s_init [Op.wait_read 9, Op.submit env_success 7,
      Op.submit env_success 8, Op.take_next_pending]).2.1 (by decide)).1,
   by decide, by decide,
   ((sequence_numbers_strictly_increasing s_near_wrap
      [Op.wait_read 9, Op.submit env_success 7]).2.2 (by decide)).2.2.1⟩

/-- C3 (counterexample): with the counter at `2 ^ 32 - 2` and two unsent
objects queued, two take-next-pending calls assign `2 ^ 32 - 1` and then 0:
the second number is zero and smaller than the first. -/
theorem sequence_numbers_wrap_around :
    (run s_wrap_two [Op.take_next_pending, Op.take_next_pending]).1 = [4294967295, 0] ∧
    ¬ List.Pairwise (fun a b => a < b)
        (run s_wrap_two [Op.take_next_pending, Op.take_next_pending]).1 ∧
    ¬ (∀ n ∈ (run s_wrap_two [Op.take_next_pending, Op.take_next_pending]).1, n ≠ 0) := by
  decide

/-! ## Lost race in `find_urb_req` -/

/-- The loop of `find_urb_req` stops at the first entry carrying `seqnum`;
when its cancel routine has already been taken the entry stays linked and
`urb_r` is reset to `NULL`. -/
theorem find_urb_req_loop_lost_race (s : State) (seqnum : Nat) (u : urb_req) (post : List urb_req)
    (hu : u.seq_num = seqnum) (hreg : (s.irps u.irp).CancelRoutine = false) :
    ∀ (pre visited : List urb_req) (urb_r : Option urb_req),
      (∀ v ∈ pre, v.seq_num ≠ seqnum) →
      find_urb_req_loop s seqnum visited (pre ++ u :: post) urb_r =
        (none, { s with irps := setIrp s.irps u.irp (IoSetCancelRoutine (s.irps u.irp) false).2 }) := by
  intro pre
  induction pre with
  | nil =>
    intro visited urb_r _
    simp [find_urb_req_loop, hu, hreg, IoSetCancelRoutine]
  | cons w pre ih =>
    intro visited urb_r h
    have hw : w.seq_num ≠ seqnum := h w (List.mem_cons_self _ _)
    have hpre : ∀ v ∈ pre, v.seq_num ≠ seqnum := fun v hv => h v (List.mem_cons_of_mem _ hv)
    rw [List.cons_append, find_urb_req_loop, if_neg hw, ih _ _ hpre]

/-- Clearing a cancel routine slot that is already empty changes no IRP. -/
theorem setIrp_clear_routine_of_clear (irps : PIRP → IRP) (p : PIRP)
    (h : (irps p).CancelRoutine = false) (q : PIRP) :
    setIrp irps p (IoSetCancelRoutine (irps p) false).2 q = irps q := by
  simp only [setIrp, IoSetCancelRoutine]
  split
  · next hq => subst hq; cases hp : irps q; simp_all
  · rfl

/-- C11: when the queue is `pre ++ u :: post`, no object of `pre` carries
`seq`, `u` carries it and the cancel routine of `u`'s IRP has already been
taken (a cancellation is in flight, deregistration fails), `find_urb_req`
returns nothing and leaves the queue, the counter, the reader slot, every IRP
and the trace as they are, whatever the later objects `post` are. -/
theorem find_urb_req_lost_race (s : State) (seq : Nat)
    (pre post : List urb_req) (u : urb_req)
    (hq : s.ioctl_q = pre ++ u :: post)
    (hpre : ∀ v ∈ pre, v.seq_num ≠ seq)
    (hu : u.seq_num = seq)
    (hreg : (s.irps u.irp).CancelRoutine = false) :
    (find_urb_req s seq).1 = none ∧
    (find_urb_req s seq).2.ioctl_q = s.ioctl_q ∧
    (find_urb_req s seq).2.seq_num = s.seq_num ∧
    (find_urb_req s seq).2.pending_read_irp = s.pending_read_irp ∧
    (find_urb_req s seq).2.trace = s.trace ∧
    ∀ p, (find_urb_req s seq).2.irps p = s.irps p := by
  rw [find_urb_req, hq, find_urb_req_loop_lost_race s seq u post hu hreg pre [] none hpre]
  refine ⟨rfl, hq, rfl, rfl, rfl, fun p => ?_⟩
  exact setIrp_clear_routine_of_clear s.irps u.irp hreg p

/-- C11 at a concrete queue: the third object carries sequence number 5 and
is being cancelled; the fourth, which carries 5 as well, is not looked at. -/
theorem find_urb_req_lost_race_witness :
    (s_three_cancelling.ioctl_q =
      [{ irp := 1, seq_num := 4, sent := true }, { irp := 2, seq_num := 0, sent := false }] ++
        { irp := 3, seq_num := 5, sent := true } :: [{ irp := 4, seq_num := 5, sent := true }]) ∧
    (find_urb_req s_three_cancelling 5).1 = none ∧
    (find_urb_req s_three_cancelling 5).2.ioctl_q = s_three_cancelling.ioctl_q :=
  ⟨rfl,
   (find_urb_req_lost_race s_three_cancelling 5
      [{ irp := 1, seq_num := 4, sent := true }, { irp := 2, seq_num := 0, sent := false }]
      [{ irp := 4, seq_num := 5, sent := true }] { irp := 3, seq_num := 5, sent := true }
      rfl (by decide) rfl rfl).1,
   (find_urb_req_lost_race s_three_cancelling 5
      [{ irp := 1, seq_num := 4, sent := true }, { irp := 2, seq_num := 0, sent := false }]
      [{ irp := 4, seq_num := 5, sent := true }] { irp := 3, seq_num := 5, sent := true }
      rfl (by decide) rfl rfl).2.1⟩

/-! ## The cancellation callback -/

/-- The loop of `remove_cancelled_urb_req` unlinks and frees the first entry
whose IRP is `irp`. -/
theorem remove_cancelled_urb_req_loop_match (s : State) (irp : PIRP) (u : urb_req)
    (post : List urb_req) (hu : u.irp = irp) :
    ∀ (pre visited : List urb_req), (∀ v ∈ pre, v.irp ≠ irp) →
      remove_cancelled_urb_req_loop s irp visited (pre ++ u :: post) =
        { s with ioctl_q := visited ++ pre ++ post, trace := s.trace ++ [Event.free u] } := by
  intro pre
  induction pre with
  | nil => intro visited _; simp [remove_cancelled_urb_req_loop, hu]
  | cons w pre ih =>
    intro visited h
    have hw : w.irp ≠ irp := h w (List.mem_cons_self _ _)
    have hpre : ∀ v ∈ pre, v.irp ≠ irp := fun v hv => h v (List.mem_cons_of_mem _ hv)
    rw [List.cons_append, remove_cancelled_urb_req_loop, if_neg hw, ih _ hpre]
    simp

/-- Without an entry whose IRP is `irp` the loop of `remove_cancelled_urb_req`
changes nothing. -/
theorem remove_cancelled_urb_req_loop_no_match (s : State) (irp : PIRP) :
    ∀ (rest visited : List urb_req), (∀ v ∈ rest, v.irp ≠ irp) →
      remove_cancelled_urb_req_loop s irp visited rest = s := by
  intro rest
  induction rest with
  | nil => intro visited _; rfl
  | cons w rest ih =>
    intro visited h
    have hw : w.irp ≠ irp := h w (List.mem_cons_self _ _)
    rw [remove_cancelled_urb_req_loop, if_neg hw,
      ih _ (fun v hv => h v (List.mem_cons_of_mem _ hv))]

/-- The callback on a queue `pre ++ u :: post` whose first object with IRP
`irp` is `u`. -/
theorem cancel_urb_req_match (s : State) (irp : PIRP) (pre post : List urb_req) (u : urb_req)
    (hq : s.ioctl_q = pre ++ u :: post) (hpre : ∀ v ∈ pre, v.irp ≠ irp) (hu : u.irp = irp) :
    (cancel_urb_req s irp).ioctl_q = pre ++ post ∧
    (cancel_urb_req s irp).trace = s.trace ++ [Event.free u, Event.complete irp STATUS_CANCELLED] ∧
    (cancel_urb_req s irp).seq_num = s.seq_num ∧
    (cancel_urb_req s irp).pending_read_irp = s.pending_read_irp := by
  simp only [cancel_urb_req, remove_cancelled_urb_req, hq,
    remove_cancelled_urb_req_loop_match s irp u post hu pre [] hpre]
  simp [complete_cancelled, IoCompleteRequest, setIrp, setStatus]

/-- The callback on a queue without an object whose IRP is `irp`. -/
theorem cancel_urb_req_no_match (s : State) (irp : PIRP)
    (h : ∀ v ∈ s.ioctl_q, v.irp ≠ irp) :
    (cancel_urb_req s irp).ioctl_q = s.ioctl_q ∧
    (cancel_urb_req s irp).trace = s.trace ++ [Event.complete irp STATUS_CANCELLED] ∧
    (cancel_urb_req s irp).seq_num = s.seq_num ∧
    (cancel_urb_req s irp).pending_read_irp = s.pending_read_irp := by
  simp only [cancel_urb_req, remove_cancelled_urb_req,
    remove_cancelled_urb_req_loop_no_match s irp s.ioctl_q [] h]
  simp [complete_cancelled, IoCompleteRequest, setIrp, setStatus]

/-- C12: for every queue and every IRP `h`, `cancel_urb_req` on a queue
`pre ++ u :: post` whose first object with IRP `h` is `u` leaves the queue
`pre ++ post`, makes exactly the outgoing calls "free `u`" and "complete `h`
with `STATUS_CANCELLED`", and keeps the counter; on a queue without an
object of IRP `h` the queue and the counter are unchanged, nothing is freed
and `h` is completed with `STATUS_CANCELLED`. -/
theorem cancel_urb_req_removes_first_match (s : State) (h : PIRP) :
    (∀ (pre post : List urb_req) (u : urb_req),
      s.ioctl_q = pre ++ u :: post → (∀ v ∈ pre, v.irp ≠ h) → u.irp = h →
        (cancel_urb_req s h).ioctl_q = pre ++ post ∧
        (cancel_urb_req s h).trace = s.trace ++ [Event.free u, Event.complete h STATUS_CANCELLED] ∧
        (cancel_urb_req s h).seq_num = s.seq_num) ∧
    ((∀ v ∈ s.ioctl_q, v.irp ≠ h) →
        (cancel_urb_req s h).ioctl_q = s.ioctl_q ∧
        (cancel_urb_req s h).trace = s.trace ++ [Event.complete h STATUS_CANCELLED] ∧
        (cancel_urb_req s h).seq_num = s.seq_num) := by
  constructor
  · intro pre post u hq hpre hu
    obtain ⟨h1, h2, h3, _⟩ := cancel_urb_req_match s h pre post u hq hpre hu
    exact ⟨h1, h2, h3⟩
  · intro hno
    obtain ⟨h1, h2, h3, _⟩ := cancel_urb_req_no_match s h hno
    exact ⟨h1, h2, h3⟩

/-- C12 at a concrete queue: IRP 2 is the second of three queued objects;
IRP 8 is not queued. -/
theorem cancel_urb_req_removes_first_match_witness :
    ((cancel_urb_req s_three 2).ioctl_q =
        [{ irp := 1, seq_num := 4, sent := true }] ++ [{ irp := 3, seq_num := 5, sent := true }] ∧
      (cancel_urb_req s_three 2).trace =
        s_three.trace ++ [Event.free { irp := 2, seq_num := 0, sent := false },
                          Event.complete 2 STATUS_CANCELLED] ∧
      (cancel_urb_req s_three 2).seq_num = s_three.seq_num) ∧
    ((cancel_urb_req s_three 8).ioctl_q = s_three.ioctl_q ∧
      (cancel_urb_req s_three 8).trace = s_three.trace ++ [Event.complete 8 STATUS_CANCELLED] ∧
      (cancel_urb_req s_three 8).seq_num = s_three.seq_num) :=
  ⟨(cancel_urb_req_removes_first_match s_three 2).1 [{ irp := 1, seq_num := 4, sent := true }]
      [{ irp := 3, seq_num := 5, sent := true }] { irp := 2, seq_num := 0, sent := false }
      rfl (by decide) rfl,
   (cancel_urb_req_removes_first_match s_three 8).2 (by decide)⟩

/-! ## `find_pending_urb_req` keeps the queue -/

/-- A queue is either all sent or splits at its first unsent object. -/
theorem exists_first_unsent (q : List urb_req) :
    (∀ v ∈ q, v.sent = true) ∨
    ∃ (pre post : List urb_req) (u : urb_req),
      q = pre ++ u :: post ∧ (∀ v ∈ pre, v.sent = true) ∧ u.sent = false := by
  induction q with
  | nil => left; intro v hv; cases hv
  | cons w q ih =>
    cases hw : w.sent with
    | false => right; exact ⟨[], q, w, rfl, (by intro v hv; cases hv), hw⟩
    | true =>
      rcases ih with h | ⟨pre, post, u, hq, hpre, hu⟩
      · left
        intro v hv
        rcases List.mem_cons.mp hv with rfl | hv
        · exact hw
        · exact h v hv
      · right
        refine ⟨w :: pre, post, u, by rw [hq]; rfl, ?_, hu⟩
        intro v hv
        rcases List.mem_cons.mp hv with rfl | hv
        · exact hw
        · exact hpre v hv

/-- C14: `find_pending_urb_req` never changes queue membership or order.
(1), (2) The queue after the call has the same length and the same IRPs in
the same order.  (3) On a queue `pre ++ u :: post` whose first unsent object
is `u`, an object `r` with `u`'s IRP is returned and the new queue is
`pre ++ r :: post`: only the returned object, at its old position, differs,
every other object has all its fields unchanged.  (4) Whenever an object is
returned the queue splits that way.  (5) When every queued object is sent,
and (6) whenever nothing is returned, the whole state (queue and counter
included) is left as it is. -/
theorem find_pending_urb_req_keeps_queue (s : State) :
    (find_pending_urb_req s).2.ioctl_q.length = s.ioctl_q.length ∧
    (find_pending_urb_req s).2.ioctl_q.map urb_req.irp = s.ioctl_q.map urb_req.irp ∧
    (∀ (pre post : List urb_req) (u : urb_req),
      s.ioctl_q = pre ++ u :: post → (∀ v ∈ pre, v.sent = true) → u.sent = false →
        ∃ r, (find_pending_urb_req s).1 = some r ∧ r.irp = u.irp ∧
          (find_pending_urb_req s).2.ioctl_q = pre ++ r :: post) ∧
    (∀ r, (find_pending_urb_req s).1 = some r →
      ∃ (pre post : List urb_req) (u : urb_req),
        s.ioctl_q = pre ++ u :: post ∧
        (find_pending_urb_req s).2.ioctl_q = pre ++ r :: post ∧ r.irp = u.irp) ∧
    ((∀ v ∈ s.ioctl_q, v.sent = true) → find_pending_urb_req s = (none, s)) ∧
    ((find_pending_urb_req s).1 = none → (find_pending_urb_req s).2 = s) := by
  have hsplit : ∀ (pre post : List urb_req) (u : urb_req),
      s.ioctl_q = pre ++ u :: post → (∀ v ∈ pre, v.sent = true) → u.sent = false →
        ∃ r, (find_pending_urb_req s).1 = some r ∧ r.irp = u.irp ∧
          (find_pending_urb_req s).2.ioctl_q = pre ++ r :: post := by
    intro pre post u hq hpre hu
    obtain ⟨f1, f2, _⟩ := find_pending_urb_req_first_unsent_aux s pre post u hq hpre hu
    exact ⟨_, f1, rfl, f2⟩
  rcases exists_first_unsent s.ioctl_q with h | ⟨pre, post, u, hq, hpre, hu⟩
  · have hn : find_pending_urb_req s = (none, s) :=
      find_pending_urb_req_loop_all_sent s s.ioctl_q [] h
    refine ⟨by rw [hn], by rw [hn], hsplit, ?_, fun _ => hn, fun _ => by rw [hn]⟩
    intro r hr
    rw [hn] at hr
    cases hr
  · obtain ⟨r, h1, h2, h3⟩ := hsplit pre post u hq hpre hu
    refine ⟨by rw [h3, hq]; simp, by rw [h3, hq]; simp [h2], hsplit, ?_, ?_, ?_⟩
    · intro r2 hr
      rw [h1] at hr
      simp only [Option.some.injEq] at hr
      subst hr
      exact ⟨pre, post, u, hq, h3, h2⟩
    · intro hall
      have := hall u (by rw [hq]; simp)
      rw [hu] at this
      cases this
    · intro hnone
      rw [h1] at hnone
      cases hnone

/-- C14 at concrete queues: on the queue with one sent object nothing is
returned and the state is unchanged; on the three-object queue, whose first
unsent object is the second one (IRP 2), an object with IRP 2 is returned
and only that position of the queue differs. -/
theorem find_pending_urb_req_keeps_queue_witness :
    find_pending_urb_req s_one_sent = (none, s_one_sent) ∧
    (find_pending_urb_req s_three).2.ioctl_q.length = s_three.ioctl_q.length ∧
    (find_pending_urb_req s_three).2.ioctl_q.map urb_req.irp = s_three.ioctl_q.map urb_req.irp ∧
    (∃ r, (find_pending_urb_req s_three).1 = some r ∧ r.irp = 2 ∧
      (find_pending_urb_req s_three).2.ioctl_q =
        [{ irp := 1, seq_num := 4, sent := true }] ++ r :: [{ irp := 3, seq_num := 5, sent := true }]) :=
  ⟨(find_pending_urb_req_keeps_queue s_one_sent).2.2.2.2.1 (by decide),
   (find_pending_urb_req_keeps_queue s_three).1,
   (find_pending_urb_req_keeps_queue s_three).2.1,
   (find_pending_urb_req_keeps_queue s_three).2.2.1 [{ irp := 1, seq_num := 4, sent := true }]
     [{ irp := 3, seq_num := 5, sent := true }] { irp := 2, seq_num := 0, sent := false }
     rfl (by decide) rfl⟩

/-! ## The deferred pairing scenario -/

/-- After `insert_urb_req` has linked an object whose IRP was not cancelled,
the cancel routine of that IRP is registered. -/
theorem insert_urb_req_routine (s : State) (u : urb_req)
    (hc : (s.irps u.irp).Cancel = false) :
    ((insert_urb_req false s u).2.irps u.irp).CancelRoutine = true := by
  simp [insert_urb_req, cancel_check, registered_irp, IoSetCancelRoutine, hc, setIrp,
    IoMarkIrpPending]

/-- C15: from a controller with empty queue, counter 0 and no waiting reader,
for a handle `h1` that is not cancelled (`Cancel` clear, no `IoCancelIrp`
getting in between) and a pool that has an object: `submit_urb_req` returns
`STATUS_PENDING` and the queue holds exactly the unsent object `(h1, 0)`;
`find_pending_urb_req` then returns that object with `sent` set and sequence
number 1; `find_urb_req` for 1 then returns that object and leaves the queue
empty; a second `find_urb_req` for 1 returns nothing. -/
theorem deferred_pairing_scenario (env : Env) (s : State) (h1 : PIRP)
    (hq : s.ioctl_q = []) (hc : s.seq_num = 0) (hread : s.pending_read_irp = none)
    (halloc : env.alloc = true) (hrace : env.cancel_races = false)
    (hcancel : (s.irps h1).Cancel = false) :
    (submit_urb_req env s h1).1 = STATUS_PENDING ∧
    (submit_urb_req env s h1).2.ioctl_q = [{ irp := h1, seq_num := 0, sent := false }] ∧
    (find_pending_urb_req (submit_urb_req env s h1).2).1 =
      some { irp := h1, seq_num := 1, sent := true } ∧
    (find_pending_urb_req (submit_urb_req env s h1).2).2.ioctl_q =
      [{ irp := h1, seq_num := 1, sent := true }] ∧
    (find_urb_req (find_pending_urb_req (submit_urb_req env s h1).2).2 1).1 =
      some { irp := h1, seq_num := 1, sent := true } ∧
    (find_urb_req (find_pending_urb_req (submit_urb_req env s h1).2).2 1).2.ioctl_q = [] ∧
    (find_urb_req (find_urb_req (find_pending_urb_req (submit_urb_req env s h1).2).2 1).2 1).1
      = none := by
  have hins : (insert_urb_req env.cancel_races s { irp := h1, seq_num := 0, sent := false }).1
      = true := by
    rw [insert_urb_req_fst]; simp [hcancel]
  rw [hrace] at hins
  have hsub : submit_urb_req env s h1 =
      (STATUS_PENDING, (insert_urb_req false s { irp := h1, seq_num := 0, sent := false }).2) := by
    rw [submit_urb_req_no_reader env s h1 hread halloc, hrace]
    simp [hins]
  have hq1 := insert_urb_req_queue false s { irp := h1, seq_num := 0, sent := false }
  simp only [hins, if_true, hq, List.nil_append] at hq1
  obtain ⟨hn1, _, _, _⟩ := insert_urb_req_frame false s { irp := h1, seq_num := 0, sent := false }
  have hr1 := insert_urb_req_routine s { irp := h1, seq_num := 0, sent := false } hcancel
  rw [hsub]
  generalize (insert_urb_req false s { irp := h1, seq_num := 0, sent := false }).2 = s1 at *
  simp only at hr1
  obtain ⟨hp1, hp2, hp3, _⟩ := find_pending_urb_req_first_unsent_aux s1 [] []
    { irp := h1, seq_num := 0, sent := false } hq1 (by intro v hv; cases hv) rfl
  rw [hn1, hc] at hp1 hp2 hp3
  have hirps : (find_pending_urb_req s1).2.irps = s1.irps := by
    rw [find_pending_urb_req, hq1]; rfl
  obtain ⟨hf1, hf2, _, _⟩ := find_urb_req_found_aux (find_pending_urb_req s1).2 1 [] []
    { irp := h1, seq_num := 1, sent := true } (by simpa using hp2) (by intro v hv; cases hv) rfl
    (by rw [hirps]; exact hr1)
  refine ⟨rfl, hq1, by simpa using hp1, by simpa using hp2, hf1, hf2, ?_⟩
  rw [find_urb_req_no_match _ 1 (by rw [hf2]; intro v hv; cases hv), hf2]
  rfl

/-- C15 at the initial controller with IRP 7. -/
theorem deferred_pairing_scenario_witness :
    s_init.ioctl_q = [] ∧ s_init.seq_num = 0 ∧ s_init.pending_read_irp = none ∧
    (submit_urb_req env_success s_init 7).1 = STATUS_PENDING ∧
    (submit_urb_req env_success s_init 7).2.ioctl_q = [{ irp := 7, seq_num := 0, sent := false }] ∧
    (find_pending_urb_req (submit_urb_req env_success s_init 7).2).1 =
      some { irp := 7, seq_num := 1, sent := true } ∧
    (find_pending_urb_req (submit_urb_req env_success s_init 7).2).2.ioctl_q =
      [{ irp := 7, seq_num := 1, sent := true }] ∧
    (find_urb_req (find_pending_urb_req (submit_urb_req env_success s_init 7).2).2 1).1 =
      some { irp := 7, seq_num := 1, sent := true } ∧
    (find_urb_req (find_pending_urb_req (submit_urb_req env_success s_init 7).2).2 1).2.ioctl_q = [] ∧
    (find_urb_req (find_urb_req (find_pending_urb_req
      (submit_urb_req env_success s_init 7).2).2 1).2 1).1 = none :=
  ⟨rfl, rfl, rfl, deferred_pairing_scenario env_success s_init 7 rfl rfl rfl rfl rfl rfl⟩

/-! ## `build_setup_packet` -/

/-- C16: with the request-type byte laid out as the spec says (recipient in
bits 0-4, type in bits 5-6, direction in bit 7), for every previous content
of the packet and all argument bytes, `build_setup_packet` leaves
`bmRequestType.B = recip mod 32 + 32 * (type mod 4) + 128 * [direct_in ≠ 0]`
and `bRequest = request`: bits 0-4 hold the recipient, bits 5-6 the type and
bit 7 is set exactly when `direct_in` is non-zero. -/
theorem build_setup_packet_request_type (csp : usb_cspkt_t)
    (direct_in type recip request : Nat) (hreq : request < 256) :
    (build_setup_packet spec_layout csp direct_in type recip request).B =
      recip % 32 + 32 * (type % 4) + 128 * (if direct_in ≠ 0 then 1 else 0) ∧
    (build_setup_packet spec_layout csp direct_in type recip request).bRequest = request ∧
    (build_setup_packet spec_layout csp direct_in type recip request).B % 32 = recip % 32 ∧
    (build_setup_packet spec_layout csp direct_in type recip request).B / 32 % 4 = type % 4 ∧
    ((build_setup_packet spec_layout csp direct_in type recip request).B / 128 % 2 = 1 ↔
      direct_in ≠ 0) ∧
    (build_setup_packet spec_layout csp direct_in type recip request).B < 256 := by
  by_cases hd : direct_in = 0
  · simp only [build_setup_packet, csp_set_recip, csp_set_dir, csp_set_type, csp_clear, set_bits,
      spec_layout, BMREQUEST_DEVICE_TO_HOST, hd, ne_eq, not_true_eq_false, if_false]
    norm_num
    omega
  · simp only [build_setup_packet, csp_set_recip, csp_set_dir, csp_set_type, csp_clear, set_bits,
      spec_layout, BMREQUEST_DEVICE_TO_HOST, hd, ne_eq, not_false_eq_true, if_true]
    norm_num
    omega

/-- C16 at a concrete packet: previous bytes 0xFF and 0x55, device-to-host,
type 6 (out of range, truncated to 2), recipient 35 (truncated to 3), request 9. -/
theorem build_setup_packet_request_type_witness :
    (9 : Nat) < 256 ∧
    (build_setup_packet spec_layout { B := 255, bRequest := 85 } 1 6 35 9).B = 195 ∧
    (build_setup_packet spec_layout { B := 255, bRequest := 85 } 1 6 35 9).bRequest = 9 :=
  ⟨by decide,
   (build_setup_packet_request_type { B := 255, bRequest := 85 } 1 6 35 9 (by decide)).1,
   (build_setup_packet_request_type { B := 255, bRequest := 85 } 1 6 35 9 (by decide)).2.1⟩

/-! ## Invariants of the queue along a run -/

/-- A queue splits at its first object carrying `seq`, unless none does. -/
theorem exists_first_seq (seq : Nat) (q : List urb_req) :
    (∀ v ∈ q, v.seq_num ≠ seq) ∨
    ∃ (pre post : List urb_req) (u : urb_req),
      q = pre ++ u :: post ∧ (∀ v ∈ pre, v.seq_num ≠ seq) ∧ u.seq_num = seq := by
  induction q with
  | nil => left; intro v hv; cases hv
  | cons w q ih =>
    by_cases hw : w.seq_num = seq
    · right; exact ⟨[], q, w, rfl, (by intro v hv; cases hv), hw⟩
    · rcases ih with h | ⟨pre, post, u, hq, hpre, hu⟩
      · left
        intro v hv
        rcases List.mem_cons.mp hv with rfl | hv
        · exact hw
        · exact h v hv
      · right
        refine ⟨w :: pre, post, u, by rw [hq]; rfl, ?_, hu⟩
        intro v hv
        rcases List.mem_cons.mp hv with rfl | hv
        · exact hw
        · exact hpre v hv

/-- A queue splits at its first object of IRP `irp`, unless none has it. -/
theorem exists_first_irp (irp : PIRP) (q : List urb_req) :
    (∀ v ∈ q, v.irp ≠ irp) ∨
    ∃ (pre post : List urb_req) (u : urb_req),
      q = pre ++ u :: post ∧ (∀ v ∈ pre, v.irp ≠ irp) ∧ u.irp = irp := by
  induction q with
  | nil => left; intro v hv; cases hv
  | cons w q ih =>
    by_cases hw : w.irp = irp
    · right; exact ⟨[], q, w, rfl, (by intro v hv; cases hv), hw⟩
    · rcases ih with h | ⟨pre, post, u, hq, hpre, hu⟩
      · left
        intro v hv
        rcases List.mem_cons.mp hv with rfl | hv
        · exact hw
        · exact h v hv
      · right
        refine ⟨w :: pre, post, u, by rw [hq]; rfl, ?_, hu⟩
        intro v hv
        rcases List.mem_cons.mp hv with rfl | hv
        · exact hw
        · exact hpre v hv

/-- The three ways `find_urb_req` can end: nothing carries `seq` (the state
is unchanged), the first object carrying `seq` is being cancelled (nothing
returned, queue unchanged), or that object is unlinked and returned. -/
theorem find_urb_req_cases (s : State) (seq : Nat) :
    (find_urb_req s seq).2.ioctl_q = s.ioctl_q ∨
    ∃ (pre post : List urb_req) (u : urb_req),
      s.ioctl_q = pre ++ u :: post ∧ u.seq_num = seq ∧
      (find_urb_req s seq).1 = some u ∧ (find_urb_req s seq).2.ioctl_q = pre ++ post := by
  rcases exists_first_seq seq s.ioctl_q with h | ⟨pre, post, u, hq, hpre, hu⟩
  · left; rw [find_urb_req_no_match s seq h]
  · cases hreg : (s.irps u.irp).CancelRoutine with
    | false =>
      left
      rw [find_urb_req, hq, find_urb_req_loop_lost_race s seq u post hu hreg pre [] none hpre]
      exact hq
    | true =>
      right
      obtain ⟨h1, h2, _, _⟩ := find_urb_req_found_aux s seq pre post u hq hpre hu hreg
      exact ⟨pre, post, u, hq, hu, h1, h2⟩

/-- The objects queued after `find_urb_req` were queued before. -/
theorem find_urb_req_mem (s : State) (seq : Nat) :
    ∀ v ∈ (find_urb_req s seq).2.ioctl_q, v ∈ s.ioctl_q := by
  intro v hv
  rcases find_urb_req_cases s seq with h | ⟨pre, post, u, hq, _, _, h2⟩
  · rwa [h] at hv
  · rw [h2] at hv
    rw [hq]
    rcases List.mem_append.mp hv with h | h
    · exact List.mem_append_left _ h
    · exact List.mem_append_right _ (List.mem_cons_of_mem _ h)

/-- The objects queued after `cancel_urb_req` were queued before. -/
theorem cancel_urb_req_mem (s : State) (irp : PIRP) :
    ∀ v ∈ (cancel_urb_req s irp).ioctl_q, v ∈ s.ioctl_q := by
  intro v hv
  rcases exists_first_irp irp s.ioctl_q with h | ⟨pre, post, u, hq, hpre, hu⟩
  · rwa [(cancel_urb_req_no_match s irp h).1] at hv
  · rw [(cancel_urb_req_match s irp pre post u hq hpre hu).1] at hv
    rw [hq]
    rcases List.mem_append.mp hv with h | h
    · exact List.mem_append_left _ h
    · exact List.mem_append_right _ (List.mem_cons_of_mem _ h)

/-- The objects queued after `IoCancelIrp` were queued before. -/
theorem IoCancelIrp_mem (s : State) (irp : PIRP) :
    ∀ v ∈ (IoCancelIrp s irp).ioctl_q, v ∈ s.ioctl_q := by
  intro v hv
  unfold IoCancelIrp at hv
  split at hv
  · exact cancel_urb_req_mem
      { s with irps := setIrp s.irps irp (IoCancelIrp_begin (s.irps irp)) } irp v hv
  · exact hv

/-- An object queued after `find_pending_urb_req` was queued before or is
the one just sent, numbered with the incremented counter. -/
theorem find_pending_urb_req_mem (s : State) :
    ∀ v ∈ (find_pending_urb_req s).2.ioctl_q,
      v ∈ s.ioctl_q ∨ (v.sent = true ∧ v.seq_num = incr32 s.seq_num) := by
  intro v hv
  rcases exists_first_unsent s.ioctl_q with h | ⟨pre, post, u, hq, hpre, hu⟩
  · left
    have hn : find_pending_urb_req s = (none, s) :=
      find_pending_urb_req_loop_all_sent s s.ioctl_q [] h
    rwa [hn] at hv
  · rw [(find_pending_urb_req_first_unsent_aux s pre post u hq hpre hu).2.1] at hv
    rcases List.mem_append.mp hv with h | h
    · left; rw [hq]; exact List.mem_append_left _ h
    · rcases List.mem_cons.mp h with rfl | h
      · right; exact ⟨rfl, rfl⟩
      · left; rw [hq]; exact List.mem_append_right _ (List.mem_cons_of_mem _ h)

/-- An object queued after `submit_urb_req` was queued before, or is the new
object: unsent with sequence number 0, or sent with the incremented counter. -/
theorem submit_urb_req_mem (env : Env) (s : State) (irp : PIRP) :
    ∀ v ∈ (submit_urb_req env s irp).2.ioctl_q,
      v ∈ s.ioctl_q ∨ (v.sent = false ∧ v.seq_num = 0) ∨
        (v.sent = true ∧ v.seq_num = incr32 s.seq_num) := by
  intro v hv
  cases halloc : env.alloc with
  | false =>
    rw [submit_urb_req_alloc_fails env s irp halloc] at hv
    exact Or.inl hv
  | true =>
    cases hread : s.pending_read_irp with
    | none =>
      have hq := insert_urb_req_queue env.cancel_races s { irp := irp, seq_num := 0, sent := false }
      rw [submit_urb_req_no_reader env s irp hread halloc] at hv
      cases hi : (insert_urb_req env.cancel_races s { irp := irp, seq_num := 0, sent := false }).1
      · simp only [hi, if_true, ExFreeToNPagedLookasideList] at hv
        simp only [hi] at hq
        rw [hq] at hv
        exact Or.inl (by simpa using hv)
      · simp only [hi, Bool.true_eq_false, if_false] at hv
        simp only [hi, if_true] at hq
        rw [hq] at hv
        rcases List.mem_append.mp hv with h | h
        · exact Or.inl h
        · rw [List.mem_singleton] at h
          subst h
          exact Or.inr (Or.inl ⟨rfl, rfl⟩)
    | some read_irp =>
      rw [submit_urb_req_reader env s irp read_irp hread halloc] at hv
      by_cases hst : env.process_urb_req read_irp
          { irp := irp, seq_num := incr32 s.seq_num, sent := false } = STATUS_SUCCESS
      · obtain ⟨_, _, h3, _, _⟩ := submit_urb_req_paired_success env
          { s with pending_read_irp := none, seq_num := incr32 s.seq_num } read_irp
          { irp := irp, seq_num := incr32 s.seq_num, sent := false } hst
        rw [h3] at hv
        split at hv
        · exact Or.inl hv
        · rcases List.mem_append.mp hv with h | h
          · exact Or.inl h
          · rw [List.mem_singleton] at h
            subst h
            exact Or.inr (Or.inr ⟨rfl, rfl⟩)
      · obtain ⟨_, _, h3, _, _⟩ := submit_urb_req_paired_failure env
          { s with pending_read_irp := none, seq_num := incr32 s.seq_num } read_irp
          { irp := irp, seq_num := incr32 s.seq_num, sent := false } hst
        rw [h3] at hv
        exact Or.inl hv

/-- An object queued after any operation was queued before, or is unsent
with sequence number 0, or is sent and numbered with the incremented counter. -/
theorem step_mem (s : State) (op : Op) :
    ∀ v ∈ (step s op).2.ioctl_q,
      v ∈ s.ioctl_q ∨ (v.sent = false ∧ v.seq_num = 0) ∨
        (v.sent = true ∧ v.seq_num = incr32 s.seq_num) := by
  intro v hv
  cases op with
  | submit env irp => exact submit_urb_req_mem env s irp v hv
  | take_next_pending =>
    rcases find_pending_urb_req_mem s v hv with h | h
    · exact Or.inl h
    · exact Or.inr (Or.inr h)
  | find_by_sequence seqnum => exact Or.inl (find_urb_req_mem s seqnum v hv)
  | cancel irp => exact Or.inl (IoCancelIrp_mem s irp v hv)
  | wait_read read_irp => exact Or.inl hv
  | cancel_begin irp => exact Or.inl hv
  | cancel_callback irp => exact Or.inl (cancel_urb_req_mem s irp v hv)

/-- Every operation keeps "unsent objects carry sequence number 0". -/
theorem step_unsent_unnumbered (s : State) (op : Op) (h : unsent_unnumbered s) :
    unsent_unnumbered (step s op).2 := by
  intro v hv hs
  rcases step_mem s op v hv with h1 | ⟨_, h2⟩ | ⟨h3, _⟩
  · exact h v h1 hs
  · exact h2
  · rw [hs] at h3; cases h3

/-- Every run keeps "unsent objects carry sequence number 0". -/
theorem run_unsent_unnumbered (ops : List Op) :
    ∀ s : State, unsent_unnumbered s → unsent_unnumbered (run s ops).2 := by
  induction ops with
  | nil => intro s h; exact h
  | cons op ops ih => intro s h; exact ih _ (step_unsent_unnumbered s op h)

/-- On a queue whose unsent objects carry sequence number 0 the report of
line 73 is not reached. -/
theorem nonzero_seq_reported_false (q : List urb_req)
    (h : ∀ u ∈ q, u.sent = false → u.seq_num = 0) : nonzero_seq_reported q = false := by
  induction q with
  | nil => rfl
  | cons w q ih =>
    rw [nonzero_seq_reported]
    split
    · next hw => simp [h w (List.mem_cons_self _ _) hw]
    · exact ih (fun u hu => h u (List.mem_cons_of_mem _ hu))

/-- C20: in every state reached from an initial controller by any sequence
of operations (submit, take-next-pending, find-by-sequence, cancellation in
one piece or in its two halves, parking of a reader), every queued object
with `sent == false` has `seq_num == 0`, so a call of `find_pending_urb_req`
in that state does not reach the report "non-zero seq_num" of line 73. -/
theorem nonzero_seq_report_unreachable (s0 : State) (ops : List Op) (h0 : initial s0) :
    (∀ u ∈ (run s0 ops).2.ioctl_q, u.sent = false → u.seq_num = 0) ∧
    nonzero_seq_reported (run s0 ops).2.ioctl_q = false := by
  have hinit : unsent_unnumbered s0 := by
    intro u hu
    rw [h0.1] at hu
    cases hu
  have h := run_unsent_unnumbered ops s0 hinit
  exact ⟨h, nonzero_seq_reported_false _ h⟩

/-- C20 at a concrete run: a submit is queued and taken, a reader is parked
and a second submit is paired with it. -/
theorem nonzero_seq_report_unreachable_witness :
    initial s_init ∧
    (∀ u ∈ (run s_init [Op.submit env_success 7, Op.take_next_pending, Op.wait_read 9,
        Op.submit env_success 8]).2.ioctl_q, u.sent = false → u.seq_num = 0) ∧
    nonzero_seq_reported (run s_init [Op.submit env_success 7, Op.take_next_pending,
        Op.wait_read 9, Op.submit env_success 8]).2.ioctl_q = false :=
  ⟨⟨rfl, rfl, rfl⟩,
   nonzero_seq_report_unreachable s_init [Op.submit env_success 7, Op.take_next_pending,
     Op.wait_read 9, Op.submit env_success 8] ⟨rfl, rfl, rfl⟩⟩

/-- C19 (as amended): in every state reached from an initial controller by
any sequence of operations, and for every sequence number `seq` other than 0,
an object that `find_urb_req` returns and removes from the queue has
`sent == true`. -/
theorem find_urb_req_removes_only_sent (s0 : State) (ops : List Op) (seq : Nat) (u : urb_req)
    (h0 : initial s0) (hseq : seq ≠ 0)
    (hret : (find_urb_req (run s0 ops).2 seq).1 = some u)
    (hrem : (find_urb_req (run s0 ops).2 seq).2.ioctl_q ≠ (run s0 ops).2.ioctl_q) :
    u.sent = true := by
  have hinit : unsent_unnumbered s0 := by
    intro v hv
    rw [h0.1] at hv
    cases hv
  have hinv := run_unsent_unnumbered ops s0 hinit
  rcases find_urb_req_cases (run s0 ops).2 seq with h | ⟨pre, post, w, hq, hw, h1, _⟩
  · exact absurd h hrem
  · rw [h1] at hret
    simp only [Option.some.injEq] at hret
    subst hret
    cases hs : w.sent with
    | true => rfl
    | false =>
      have := hinv w (by rw [hq]; simp) hs
      rw [hw] at this
      exact absurd this hseq

/-- C19 at a concrete run: a submit is queued and taken (number 1), and
`find_urb_req` for 1 removes the sent object. -/
theorem find_urb_req_removes_only_sent_witness :
    initial s_init ∧ (1 : Nat) ≠ 0 ∧
    (find_urb_req (run s_init [Op.submit env_success 7, Op.take_next_pending]).2 1).1 =
      some { irp := 7, seq_num := 1, sent := true } ∧
    ({ irp := 7, seq_num := 1, sent := true } : urb_req).sent = true :=
  ⟨⟨rfl, rfl, rfl⟩, by decide, by decide,
   find_urb_req_removes_only_sent s_init [Op.submit env_success 7, Op.take_next_pending] 1
     { irp := 7, seq_num := 1, sent := true } ⟨rfl, rfl, rfl⟩ (by decide) (by decide) (by decide)⟩

/-- C19 (counterexample): after one queued submit from the initial
controller, `find_urb_req` for sequence number 0 returns and removes the
queued object, which has never been sent. -/
theorem find_urb_req_zero_removes_unsent :
    initial s_init ∧
    (run s_init [Op.submit env_success 7]).2.ioctl_q = [{ irp := 7, seq_num := 0, sent := false }] ∧
    (find_urb_req (run s_init [Op.submit env_success 7]).2 0).1 =
      some { irp := 7, seq_num := 0, sent := false } ∧
    (find_urb_req (run s_init [Op.submit env_success 7]).2 0).2.ioctl_q = [] ∧
    ¬ (({ irp := 7, seq_num := 0, sent := false } : urb_req).sent = true) :=
  ⟨⟨rfl, rfl, rfl⟩, by decide⟩

/-! ## The invariant `sequence_number == 0 ⇒ sent == false` -/

/-- Running `a ++ b` is running `a` and then `b`. -/
theorem run_append (a b : List Op) :
    ∀ s : State, (run s (a ++ b)).2 = (run (run s a).2 b).2 := by
  induction a with
  | nil => intro s; rfl
  | cons op a ih => intro s; exact ih (step s op).2

/-- Lines 184-201 leave the `Cancel` flag of every IRP as they found it when
`process_urb_req` fails. -/
theorem submit_urb_req_paired_failure_cancel (env : Env) (s : State) (read_irp : PIRP)
    (u : urb_req) (hst : env.process_urb_req read_irp u ≠ STATUS_SUCCESS) (p : PIRP) :
    ((submit_urb_req_paired env s read_irp u).2.irps p).Cancel = (s.irps p).Cancel := by
  simp only [submit_urb_req_paired, call_process_urb_req_status, hst, if_false]
  exact call_process_urb_req_cancel env s read_irp u p

/-- Parking a reader and submitting a request the encoder rejects advances the
counter by one and leaves the queue empty; repeated `n` times, from a
controller with an empty queue and no cancelled IRP, the counter has
advanced by `n` modulo `2 ^ 32`. -/
theorem counter_advances (n : Nat) :
    ∀ s : State, s.ioctl_q = [] → (∀ p, (s.irps p).Cancel = false) →
      ∃ ops, (run s ops).2.ioctl_q = [] ∧
        (run s ops).2.seq_num % 2 ^ 32 = (s.seq_num + n) % 2 ^ 32 ∧
        (∀ p, ((run s ops).2.irps p).Cancel = false) := by
  induction n with
  | zero => intro s hq hc; exact ⟨[], hq, rfl, hc⟩
  | succ n ih =>
    intro s hq hc
    have hst : env_failure.process_urb_req 9
        { irp := 7, seq_num := incr32 s.seq_num, sent := false } ≠ STATUS_SUCCESS := by
      show STATUS_BUFFER_TOO_SMALL ≠ STATUS_SUCCESS
      decide
    have hsub := submit_urb_req_reader env_failure { s with pending_read_irp := some 9 } 7 9 rfl rfl
    obtain ⟨_, _, h3, h4, _⟩ := submit_urb_req_paired_failure env_failure
      { s with pending_read_irp := none, seq_num := incr32 s.seq_num } 9
      { irp := 7, seq_num := incr32 s.seq_num, sent := false } hst
    have h5 := submit_urb_req_paired_failure_cancel env_failure
      { s with pending_read_irp := none, seq_num := incr32 s.seq_num } 9
      { irp := 7, seq_num := incr32 s.seq_num, sent := false } hst
    obtain ⟨ops, o1, o2, o3⟩ := ih (submit_urb_req env_failure { s with pending_read_irp := some 9 } 7).2
      (by rw [hsub]; exact h3.trans hq)
      (by intro p; rw [hsub]; exact (h5 p).trans (hc p))
    refine ⟨Op.wait_read 9 :: Op.submit env_failure 7 :: ops, ?_, ?_, ?_⟩
    · simpa only [run, step] using o1
    · simp only [run, step]
      rw [o2, hsub, h4]
      simp only [incr32]
      omega
    · simpa only [run, step] using o3

/-- A state that breaks `sequence_number == 0 ⇒ sent == false` is reached
from the initial controller: after `2 ^ 32 - 1` rejected pairings the counter
is `2 ^ 32 - 1`, and the next request paired with a reader is enqueued sent
with sequence number 0. -/
theorem zero_seq_sent_reachable : ∃ ops, ¬ zero_seq_unsent (run s_init ops).2 := by
  obtain ⟨ops, o1, o2, o3⟩ := counter_advances 4294967295 s_init rfl (fun _ => rfl)
  have hc : incr32 (run s_init ops).2.seq_num = 0 := by
    have : s_init.seq_num = 0 := rfl
    rw [this] at o2
    simp only [incr32]
    omega
  have hst : env_success.process_urb_req 9
      { irp := 7, seq_num := incr32 (run s_init ops).2.seq_num, sent := false } = STATUS_SUCCESS := rfl
  have hsub := submit_urb_req_reader env_success
    { (run s_init ops).2 with pending_read_irp := some 9 } 7 9 rfl rfl
  obtain ⟨_, _, h3, _, _⟩ := submit_urb_req_paired_success env_success
    { (run s_init ops).2 with pending_read_irp := none,
                              seq_num := incr32 (run s_init ops).2.seq_num } 9
    { irp := 7, seq_num := incr32 (run s_init ops).2.seq_num, sent := false } hst
  refine ⟨ops ++ [Op.wait_read 9, Op.submit env_success 7], ?_⟩
  rw [run_append]
  intro hinv
  have hmem : ({ irp := 7, seq_num := 0, sent := true } : urb_req) ∈
      (run (run s_init ops).2 [Op.wait_read 9, Op.submit env_success 7]).2.ioctl_q := by
    simp only [run, step]
    rw [hsub, h3, hc]
    have hcl : (!env_success.cancel_races && ((run s_init ops).2.irps 7).Cancel) = false := by
      rw [o3 7]; rfl
    simp [hcl]
  have := hinv _ hmem rfl
  cases this

/-! ## Cancellation racing with `find_urb_req` -/

/-- The result of `find_urb_req` when the first object carrying `seq` has
lost its cancel routine: nothing is returned, queue and trace are unchanged. -/
theorem find_urb_req_lost_race_aux (s : State) (seq : Nat)
    (pre post : List urb_req) (u : urb_req)
    (hq : s.ioctl_q = pre ++ u :: post)
    (hpre : ∀ v ∈ pre, v.seq_num ≠ seq)
    (hu : u.seq_num = seq)
    (hreg : (s.irps u.irp).CancelRoutine = false) :
    (find_urb_req s seq).1 = none ∧
    (find_urb_req s seq).2.ioctl_q = s.ioctl_q ∧
    (find_urb_req s seq).2.trace = s.trace := by
  rw [find_urb_req, hq, find_urb_req_loop_lost_race s seq u post hu hreg pre [] none hpre]
  exact ⟨rfl, hq, rfl⟩

/-- C17: let `u` be a queued object (queue `pre ++ u :: post`) whose cancel
routine is registered, the only queued object with its sequence number and
the first with its IRP.  Whichever way the cancellation of `u`'s IRP and
`find_urb_req` on `u`'s sequence number are ordered, `u` is disposed of
exactly once.
(a) `find_urb_req` first: it returns `u` (handing it to its caller) and
unlinks it; the `IoCancelIrp` that follows finds no routine and makes no
outgoing call.
(b) `IoCancelIrp` first: the callback unlinks `u`, frees it once and
completes the IRP once with `STATUS_CANCELLED`; the `find_urb_req` that
follows does not return `u` and makes no outgoing call.
(c) `IoCancelIrp` takes the routine, `find_urb_req` runs, then the callback
runs: `find_urb_req` returns nothing and leaves `u` queued, and the callback
unlinks `u`, frees it once and completes the IRP once. -/
theorem cancel_races_find_exactly_once (s : State) (pre post : List urb_req) (u : urb_req)
    (hq : s.ioctl_q = pre ++ u :: post)
    (hseq : ∀ v ∈ pre ++ post, v.seq_num ≠ u.seq_num)
    (hirp : ∀ v ∈ pre, v.irp ≠ u.irp)
    (hreg : (s.irps u.irp).CancelRoutine = true) :
    ((find_urb_req s u.seq_num).1 = some u ∧
      (find_urb_req s u.seq_num).2.ioctl_q = pre ++ post ∧
      (IoCancelIrp (find_urb_req s u.seq_num).2 u.irp).trace = s.trace ∧
      (IoCancelIrp (find_urb_req s u.seq_num).2 u.irp).ioctl_q = pre ++ post) ∧
    ((IoCancelIrp s u.irp).ioctl_q = pre ++ post ∧
      (IoCancelIrp s u.irp).trace =
        s.trace ++ [Event.free u, Event.complete u.irp STATUS_CANCELLED] ∧
      (find_urb_req (IoCancelIrp s u.irp) u.seq_num).1 ≠ some u ∧
      (find_urb_req (IoCancelIrp s u.irp) u.seq_num).2.trace =
        s.trace ++ [Event.free u, Event.complete u.irp STATUS_CANCELLED] ∧
      (find_urb_req (IoCancelIrp s u.irp) u.seq_num).2.ioctl_q = pre ++ post) ∧
    ((find_urb_req (step s (Op.cancel_begin u.irp)).2 u.seq_num).1 = none ∧
      (find_urb_req (step s (Op.cancel_begin u.irp)).2 u.seq_num).2.ioctl_q = pre ++ u :: post ∧
      (cancel_urb_req (find_urb_req (step s (Op.cancel_begin u.irp)).2 u.seq_num).2 u.irp).trace =
        s.trace ++ [Event.free u, Event.complete u.irp STATUS_CANCELLED] ∧
      (cancel_urb_req (find_urb_req (step s (Op.cancel_begin u.irp)).2 u.seq_num).2 u.irp).ioctl_q =
        pre ++ post) := by
  have hpre : ∀ v ∈ pre, v.seq_num ≠ u.seq_num :=
    fun v hv => hseq v (List.mem_append_left _ hv)
  refine ⟨?_, ?_, ?_⟩
  · obtain ⟨h1, h2, h3, h4⟩ := find_urb_req_found_aux s u.seq_num pre post u hq hpre rfl hreg
    refine ⟨h1, h2, ?_, ?_⟩
    · unfold IoCancelIrp
      rw [if_neg (by rw [h4]; simp)]
      exact h3
    · unfold IoCancelIrp
      rw [if_neg (by rw [h4]; simp)]
      exact h2
  · have hI : IoCancelIrp s u.irp =
        cancel_urb_req { s with irps := setIrp s.irps u.irp (IoCancelIrp_begin (s.irps u.irp)) }
          u.irp := by
      unfold IoCancelIrp
      rw [if_pos hreg]
    obtain ⟨c1, c2, _, _⟩ := cancel_urb_req_match
      { s with irps := setIrp s.irps u.irp (IoCancelIrp_begin (s.irps u.irp)) } u.irp pre post u
      hq hirp rfl
    rw [← hI] at c1 c2
    have hno : ∀ v ∈ (IoCancelIrp s u.irp).ioctl_q, v.seq_num ≠ u.seq_num := by
      rw [c1]; exact hseq
    have hf := find_urb_req_no_match (IoCancelIrp s u.irp) u.seq_num hno
    refine ⟨c1, c2, ?_, ?_, ?_⟩
    · rw [hf, c1]
      intro hlast
      have hmem : u ∈ pre ++ post := List.mem_of_getLast?_eq_some hlast
      exact hseq u hmem rfl
    · rw [hf]; exact c2
    · rw [hf]; exact c1
  · have hreg2 : (((step s (Op.cancel_begin u.irp)).2).irps u.irp).CancelRoutine = false := by
      simp [step, setIrp, IoCancelIrp_begin]
    obtain ⟨l1, l2, l3⟩ := find_urb_req_lost_race_aux (step s (Op.cancel_begin u.irp)).2 u.seq_num
      pre post u hq hpre rfl hreg2
    have l2q : (find_urb_req (step s (Op.cancel_begin u.irp)).2 u.seq_num).2.ioctl_q
        = pre ++ u :: post := l2.trans hq
    obtain ⟨c1, c2, _, _⟩ := cancel_urb_req_match
      (find_urb_req (step s (Op.cancel_begin u.irp)).2 u.seq_num).2 u.irp pre post u l2q hirp rfl
    refine ⟨l1, l2q, ?_, c1⟩
    rw [c2, l3]
    rfl

/-- C17 at a concrete queue: the object with IRP 3 and sequence number 5,
third of three. -/
theorem cancel_races_find_exactly_once_witness :
    ((find_urb_req s_three 5).1 = some { irp := 3, seq_num := 5, sent := true } ∧
      (IoCancelIrp (find_urb_req s_three 5).2 3).trace = s_three.trace) ∧
    ((IoCancelIrp s_three 3).trace =
        s_three.trace ++ [Event.free { irp := 3, seq_num := 5, sent := true },
                          Event.complete 3 STATUS_CANCELLED] ∧
      (find_urb_req (IoCancelIrp s_three 3) 5).1 ≠ some { irp := 3, seq_num := 5, sent := true }) ∧
    ((find_urb_req (step s_three (Op.cancel_begin 3)).2 5).1 = none ∧
      (cancel_urb_req (find_urb_req (step s_three (Op.cancel_begin 3)).2 5).2 3).trace =
        s_three.trace ++ [Event.free { irp := 3, seq_num := 5, sent := true },
                          Event.complete 3 STATUS_CANCELLED]) :=
  have h := cancel_races_find_exactly_once s_three
    [{ irp := 1, seq_num := 4, sent := true }, { irp := 2, seq_num := 0, sent := false }] []
    { irp := 3, seq_num := 5, sent := true } rfl (by decide) (by decide) rfl
  ⟨⟨h.1.1, h.1.2.2.1⟩, ⟨h.2.1.2.1, h.2.1.2.2.1⟩, ⟨h.2.2.1, h.2.2.2.2.1⟩⟩

/-! ## First in, first out -/

/-- Draining: when the unsent objects of the queue are `us`, in queue order,
and the counter cannot reach `2 ^ 32`, as many calls of
`find_pending_urb_req` as there are unsent objects return them in order,
numbered consecutively, and leave every queued object sent. -/
theorem take_pending_n_spec (us : List urb_req) :
    ∀ s : State, s.ioctl_q.filter (fun u => !u.sent) = us →
      s.seq_num + us.length < 2 ^ 32 →
      (take_pending_n us.length s).1 =
        (us.enumFrom (s.seq_num + 1)).map
          (fun p => some { irp := p.2.irp, seq_num := p.1, sent := true }) ∧
      (take_pending_n us.length s).2.seq_num = s.seq_num + us.length ∧
      (∀ v ∈ (take_pending_n us.length s).2.ioctl_q, v.sent = true) := by
  induction us with
  | nil =>
    intro s hf _
    refine ⟨rfl, rfl, ?_⟩
    intro v hv
    have := (List.filter_eq_nil_iff.mp hf) v hv
    simpa using this
  | cons u us ih =>
    intro s hf hc
    simp only [List.length_cons] at hc
    obtain ⟨l1, l2, hq, hl1, hu, hl2⟩ := List.filter_eq_cons_iff.mp hf
    have hpre : ∀ v ∈ l1, v.sent = true := by
      intro v hv
      have := hl1 v hv
      simpa using this
    have hus : u.sent = false := by simpa using hu
    have hinc : incr32 s.seq_num = s.seq_num + 1 := by
      unfold incr32; exact Nat.mod_eq_of_lt (by omega)
    obtain ⟨f1, f2, f3, _, _, _⟩ := find_pending_urb_req_first_unsent_aux s l1 l2 u hq hpre hus
    rw [hinc] at f1 f2 f3
    have hf' : (find_pending_urb_req s).2.ioctl_q.filter (fun u => !u.sent) = us := by
      rw [f2, List.filter_append, List.filter_cons]
      have h1 : l1.filter (fun u => !u.sent) = [] := by
        rw [List.filter_eq_nil_iff]
        intro v hv
        simp [hpre v hv]
      simp [h1, hl2]
    obtain ⟨i1, i2, i3⟩ := ih (find_pending_urb_req s).2 hf' (by rw [f3]; omega)
    refine ⟨?_, ?_, i3⟩
    · simp only [List.length_cons, take_pending_n, i1, f1, f3, List.enumFrom_cons, List.map_cons]
    · simp only [List.length_cons, take_pending_n, i2, f3]
      omega

/-- The `Cancel` flag of every IRP is left alone by `insert_urb_req` when no
`IoCancelIrp` gets in between. -/
theorem insert_urb_req_cancel (s : State) (u : urb_req) (p : PIRP) :
    ((insert_urb_req false s u).2.irps p).Cancel = (s.irps p).Cancel := by
  cases h : (s.irps u.irp).Cancel <;>
    simp [insert_urb_req, cancel_check, registered_irp, IoSetCancelRoutine, h, setIrp,
      IoMarkIrpPending] <;> split <;> simp_all

/-- Submitting a list of IRPs, none cancelled, with no reader waiting and a
pool that never runs dry, appends one unsent object per IRP, in list order. -/
theorem submit_all_queue (env : Env) (halloc : env.alloc = true)
    (hrace : env.cancel_races = false) (irps : List PIRP) :
    ∀ s : State, s.pending_read_irp = none → (∀ h ∈ irps, (s.irps h).Cancel = false) →
      (submit_all env s irps).ioctl_q =
        s.ioctl_q ++ irps.map (fun h => { irp := h, seq_num := 0, sent := false }) ∧
      (submit_all env s irps).seq_num = s.seq_num := by
  induction irps with
  | nil => intro s _ _; simp [submit_all]
  | cons h irps ih =>
    intro s hread hc
    have hins : (insert_urb_req false s { irp := h, seq_num := 0, sent := false }).1 = true := by
      rw [insert_urb_req_fst]; simp [hc h (List.mem_cons_self _ _)]
    have hsub : submit_urb_req env s h =
        (STATUS_PENDING, (insert_urb_req false s { irp := h, seq_num := 0, sent := false }).2) := by
      rw [submit_urb_req_no_reader env s h hread halloc, hrace]
      simp [hins]
    have hq1 := insert_urb_req_queue false s { irp := h, seq_num := 0, sent := false }
    simp only [hins, if_true] at hq1
    obtain ⟨n1, r1, _, _⟩ := insert_urb_req_frame false s { irp := h, seq_num := 0, sent := false }
    obtain ⟨i1, i2⟩ := ih (insert_urb_req false s { irp := h, seq_num := 0, sent := false }).2
      (r1.trans hread)
      (fun k hk => (insert_urb_req_cancel s _ k).trans (hc k (List.mem_cons_of_mem _ hk)))
    simp only [submit_all, hsub, i1, i2, hq1, n1, List.map_cons, List.append_assoc,
      List.singleton_append, and_self]

/-- Numbering the fresh objects of a list of IRPs is numbering the IRPs. -/
theorem enumFrom_map_fresh (irps : List PIRP) :
    ∀ c : Nat,
      List.map (fun p => some ({ irp := p.2.irp, seq_num := p.1, sent := true } : urb_req))
          (List.enumFrom c (irps.map (fun h => ({ irp := h, seq_num := 0, sent := false } : urb_req)))) =
        List.map (fun p => some ({ irp := p.2, seq_num := p.1, sent := true } : urb_req))
          (List.enumFrom c irps) := by
  induction irps with
  | nil => intro c; rfl
  | cons h irps ih =>
    intro c
    simp only [List.map_cons, List.enumFrom_cons, ih]

/-- C18: FIFO draining.  (1) For every queue whose unsent objects are
`u1, ..., uk` in queue order and every counter `c` with `c + k < 2 ^ 32`,
`k` consecutive calls of `find_pending_urb_req` return `u1, ..., uk` in that
order, marked sent and numbered `c + 1, ..., c + k`, and one more call
returns nothing.  (2) In particular, when every queued object is sent, no
reader waits and the IRPs `h1, ..., hk` (none cancelled, pool not exhausted)
are submitted in that order, `k` calls return the objects of `h1, ..., hk`
in submission order. -/
theorem take_next_pending_fifo (s : State) (env : Env) (irps : List PIRP) :
    (s.seq_num + (s.ioctl_q.filter (fun u => !u.sent)).length < 2 ^ 32 →
      (take_pending_n (s.ioctl_q.filter (fun u => !u.sent)).length s).1 =
        ((s.ioctl_q.filter (fun u => !u.sent)).enumFrom (s.seq_num + 1)).map
          (fun p => some { irp := p.2.irp, seq_num := p.1, sent := true }) ∧
      (find_pending_urb_req
        (take_pending_n (s.ioctl_q.filter (fun u => !u.sent)).length s).2).1 = none) ∧
    ((∀ v ∈ s.ioctl_q, v.sent = true) → s.pending_read_irp = none → env.alloc = true →
      env.cancel_races = false → (∀ h ∈ irps, (s.irps h).Cancel = false) →
      s.seq_num + irps.length < 2 ^ 32 →
      (take_pending_n irps.length (submit_all env s irps)).1 =
        (irps.enumFrom (s.seq_num + 1)).map
          (fun p => some { irp := p.2, seq_num := p.1, sent := true }) ∧
      (find_pending_urb_req (take_pending_n irps.length (submit_all env s irps)).2).1 = none) := by
  constructor
  · intro hc
    obtain ⟨h1, _, h3⟩ := take_pending_n_spec _ s rfl hc
    refine ⟨h1, ?_⟩
    rw [find_pending_urb_req, find_pending_urb_req_loop_all_sent _ _ [] h3]
  · intro hall hread halloc hrace hcancel hc
    obtain ⟨q1, q2⟩ := submit_all_queue env halloc hrace irps s hread hcancel
    have hfil : (submit_all env s irps).ioctl_q.filter (fun u => !u.sent) =
        irps.map (fun h => { irp := h, seq_num := 0, sent := false }) := by
      rw [q1, List.filter_append]
      have h1 : s.ioctl_q.filter (fun u => !u.sent) = [] := by
        rw [List.filter_eq_nil_iff]
        intro v hv
        simp [hall v hv]
      rw [h1, List.nil_append, List.filter_eq_self]
      intro v hv
      obtain ⟨k, _, rfl⟩ := List.mem_map.mp hv
      rfl
    obtain ⟨h1, _, h3⟩ := take_pending_n_spec _ (submit_all env s irps) hfil
      (by rw [q2, List.length_map]; exact hc)
    rw [List.length_map] at h1 h3
    refine ⟨?_, ?_⟩
    · rw [h1, q2]
      exact enumFrom_map_fresh irps (s.seq_num + 1)
    · rw [find_pending_urb_req, find_pending_urb_req_loop_all_sent _ _ [] h3]

/-- C18 at concrete controllers: the three-object queue has one unsent
object (IRP 2, counter 5), and IRPs 7 and 8 are submitted to the initial
controller and drained. -/
theorem take_next_pending_fifo_witness :
    ((take_pending_n 1 s_three).1 = [some { irp := 2, seq_num := 6, sent := true }] ∧
      (find_pending_urb_req (take_pending_n 1 s_three).2).1 = none) ∧
    ((take_pending_n 2 (submit_all env_success s_init [7, 8])).1 =
        [some { irp := 7, seq_num := 1, sent := true }, some { irp := 8, seq_num := 2, sent := true }] ∧
      (find_pending_urb_req (take_pending_n 2 (submit_all env_success s_init [7, 8])).2).1 = none) :=
  ⟨(take_next_pending_fifo s_three env_success [7, 8]).1 (by decide),
   (take_next_pending_fifo s_init env_success [7, 8]).2 (by decide) rfl rfl rfl (by decide)
     (by decide)⟩

end UsbipVhci
